import Mathlib

/-!
The seL4 elfloader: multi-core bring-up and interrupt-controller set-up

A shallow embedding of

* `elfloader-tool/src/drivers/gic/gic_v2.c` (`gic_v2_init`),
* `elfloader-tool/src/drivers/gic/gic_v3.c` (`gicv3_do_wait_for_rwp`, `gic_v3_init`),
* `elfloader-tool/src/arch-arm/smp_boot.c` (`non_boot_main`, `init_cpus`),

together with theorems about the register accesses and the call sequences
these functions perform.

Conventions of the embedding:

* a memory-mapped register window is a `Device`: a hardware state with a
  `read` that may change the state (volatile reads observe hardware-driven
  change) and a `write`; every access the C code makes is one `load`/`store`
  and is appended to a trace, in program order;
* `uint32_t` values are natural numbers reduced modulo `2 ^ 32`;
* a C `for (i = a; i < n; i += s)` loop is `forLoop a s n`;
* `printf` calls (the logging sink) are left out.
-/

namespace Elfloader

/-! ## Build-time configuration -/

/-- The configuration macros tested by the sources. -/
structure Config where
  /-- The value of `CONFIG_MAX_NUM_NODES`. -/
  CONFIG_MAX_NUM_NODES : Nat
  /-- Whether `CONFIG_ARCH_AARCH64` is defined. -/
  CONFIG_ARCH_AARCH64 : Bool
  /-- Whether `CONFIG_ARM_HYPERVISOR_SUPPORT` is defined. -/
  CONFIG_ARM_HYPERVISOR_SUPPORT : Bool
  /-- Whether `CONFIG_PLAT_QEMU_ARM_VIRT` is defined. -/
  CONFIG_PLAT_QEMU_ARM_VIRT : Bool
deriving DecidableEq, Repr

/-- Width of `word_t` / `unsigned long` in bits. -/
def wordBits (cfg : Config) : Nat := if cfg.CONFIG_ARCH_AARCH64 then 64 else 32

/-- The macro `BIT(n)`, `1ul << n`. -/
def BIT (n : Nat) : Nat := 1 <<< n

/-! ## Volatile register windows -/

/-- A memory-mapped device with register names `R` and hardware state `σ`.
A read returns the value seen and the hardware state after the read. -/
structure Device (σ R : Type) where
  read : σ → R → Nat × σ
  write : σ → R → Nat → σ

/-- One access to a device register. -/
inductive Access (R : Type) where
  | rd (r : R) (v : Nat)
  | wr (r : R) (v : Nat)
deriving DecidableEq, Repr

/-- The register an access targets. -/
def Access.reg {R : Type} : Access R → R
  | Access.rd r _ => r
  | Access.wr r _ => r

/-- Hardware state together with the accesses made so far, oldest first. -/
structure Run (σ R : Type) where
  hw : σ
  trace : List (Access R)

/-- A volatile read of a 32-bit register. -/
def load {σ R : Type} (dev : Device σ R) (r : R) (st : Run σ R) : Nat × Run σ R :=
  let v := (dev.read st.hw r).1 % 2 ^ 32
  (v, ⟨(dev.read st.hw r).2, st.trace ++ [Access.rd r v]⟩)

/-- A volatile write of a 32-bit register. -/
def store {σ R : Type} (dev : Device σ R) (r : R) (v : Nat) (st : Run σ R) : Run σ R :=
  ⟨dev.write st.hw r (v % 2 ^ 32), st.trace ++ [Access.wr r (v % 2 ^ 32)]⟩

/-- The loop `for (i = i0; i < bound; i += step) body(i)` with an iteration
budget: one unit per evaluation of the loop condition that succeeds. -/
def forLoopFuel {S : Type} (body : Nat → S → S) (step bound : Nat) : Nat → Nat → S → S
  | 0, _, s => s
  | fuel + 1, i, s =>
    if i < bound then forLoopFuel body step bound fuel (i + step) (body i s) else s

/-- The loop `for (i = i0; i < bound; i += step) body(i)`.  The budget `bound`
is never exhausted when `step` is positive (`loopIdx_mem`). -/
def forLoop {S : Type} (i0 step bound : Nat) (body : Nat → S → S) (s : S) : S :=
  forLoopFuel body step bound bound i0 s

/-- The values the loop variable takes in `forLoopFuel`, in order. -/
def loopIdxFuel (step bound : Nat) : Nat → Nat → List Nat
  | 0, _ => []
  | fuel + 1, i => if i < bound then i :: loopIdxFuel step bound fuel (i + step) else []

/-- The values the loop variable takes in `forLoop`, in order. -/
def loopIdx (i0 step bound : Nat) : List Nat := loopIdxFuel step bound bound i0

/-- Result of a driver initialiser: return value, the driver's private
`static int initialized` flag afterwards, hardware state and accesses made. -/
structure InitResult (σ R : Type) where
  ret : Int
  initialized : Bool
  hw : σ
  trace : List (Access R)

/-! ## `gic_v2.c` -/

namespace GicV2

/-- The fields of `struct gic_dist_map` (GICv2) that `gic_v2_init` touches. -/
inductive Reg where
  | enable
  | ic_type
  | security (i : Nat)
  | enable_clr (i : Nat)
  | pending_clr (i : Nat)
  | priority (i : Nat)
  | config (i : Nat)
deriving DecidableEq, Repr

def SPI_START : Nat := 32
def GIC_REG_WIDTH : Nat := 32
def GICD_TYPE_LINESNR : Nat := 0x01f
def IRQ_SET_ALL : Nat := 0xffffffff

/-- The macro `GIC_PRI_IRQ`: `0x80` with hypervisor support, `0x00` without. -/
def GIC_PRI_IRQ (cfg : Config) : Nat :=
  if cfg.CONFIG_ARM_HYPERVISOR_SUPPORT then 0x80 else 0x00

/-- The value stored into `security[i >> 5]`. -/
def securityValue (cfg : Config) : Nat :=
  if cfg.CONFIG_ARM_HYPERVISOR_SUPPORT && !cfg.CONFIG_PLAT_QEMU_ARM_VIRT then 0xffffffff else 0

/-- The local `nr_lines = GIC_REG_WIDTH * ((type & GICD_TYPE_LINESNR) + 1)`. -/
def nrLines (type : Nat) : Nat :=
  (GIC_REG_WIDTH * ((type &&& GICD_TYPE_LINESNR) + 1)) % 2 ^ 32

/-- The local `priority` of `gic_v2_init`. -/
def priorityWord (cfg : Config) : Nat :=
  (GIC_PRI_IRQ cfg <<< 24 ||| GIC_PRI_IRQ cfg <<< 16 ||| GIC_PRI_IRQ cfg <<< 8 |||
    GIC_PRI_IRQ cfg) % 2 ^ 32

/-- The function `gic_v2_init`; `initialized` is the value of the function's
static flag on entry. -/
def gic_v2_init {σ : Type} (cfg : Config) (dev : Device σ Reg) (initialized : Bool)
    (hw : σ) : InitResult σ Reg :=
  if initialized then ⟨0, initialized, hw, []⟩ else
  let st0 : Run σ Reg := ⟨hw, []⟩
  let r1 := load dev Reg.enable st0
  let ctlr := r1.1
  let ctlr_mask := BIT 0
  let st2 :=
    if ctlr &&& ctlr_mask ≠ ctlr_mask then store dev Reg.enable (ctlr ||| ctlr_mask) r1.2
    else r1.2
  let r3 := load dev Reg.ic_type st2
  let type := r3.1
  let nr_lines := nrLines type
  -- Disable and clear all global interrupts
  let st4 := forLoop SPI_START 32 nr_lines (fun i st =>
    store dev (Reg.pending_clr (i / 32)) IRQ_SET_ALL
      (store dev (Reg.enable_clr (i / 32)) IRQ_SET_ALL st)) r3.2
  -- level-triggered, 1-N
  let st5 := forLoop SPI_START 16 nr_lines (fun i st =>
    store dev (Reg.config (i / 16)) 0x55555555 st) st4
  -- group 0 for secure; group 1 for non-secure
  let st6 := forLoop SPI_START 32 nr_lines (fun i st =>
    store dev (Reg.security (i >>> 5)) (securityValue cfg) st) st5
  -- Default priority for global interrupts
  let priority := priorityWord cfg
  let st7 := forLoop SPI_START 4 nr_lines (fun i st =>
    store dev (Reg.priority (i / 4)) priority st) st6
  ⟨0, true, st7.hw, st7.trace⟩

/-- Declared length of the array a register belongs to, for the indexed
fields of `struct gic_dist_map`; scalar fields have none. -/
def declaredLen : Reg → Option Nat
  | Reg.enable => none
  | Reg.ic_type => none
  | Reg.security _ => some 32
  | Reg.enable_clr _ => some 32
  | Reg.pending_clr _ => some 32
  | Reg.priority _ => some 255
  | Reg.config _ => some 64

/-- Index of an indexed register within its array. -/
def regIndex : Reg → Option Nat
  | Reg.enable => none
  | Reg.ic_type => none
  | Reg.security i => some i
  | Reg.enable_clr i => some i
  | Reg.pending_clr i => some i
  | Reg.priority i => some i
  | Reg.config i => some i

/-- The register is not in a per-line bank, or it is and covers only lines
from `SPI_START` on: index at least 1 in the banks with 32 lines per
register, at least 2 in `config` (16 lines per register), at least 8 in
`priority` (4 lines per register). -/
def aboveSpiStart : Reg → Prop
  | Reg.enable => True
  | Reg.ic_type => True
  | Reg.security i => 1 ≤ i
  | Reg.enable_clr i => 1 ≤ i
  | Reg.pending_clr i => 1 ≤ i
  | Reg.priority i => 8 ≤ i
  | Reg.config i => 2 ≤ i

end GicV2

/-! ## `gic_v3.c` -/

namespace GicV3

/-- The fields of `struct gic_dist_map` (GICv3) that `gic_v3_init` touches,
and `igrouprn`, the group registers. -/
inductive Reg where
  | ctlr
  | typer
  | igrouprn (i : Nat)
  | icenablern (i : Nat)
  | icpendrn (i : Nat)
  | ipriorityrn (i : Nat)
  | icfgrn (i : Nat)
deriving DecidableEq, Repr

def GICD_CTLR_RWP : Nat := BIT 31
def GICD_CTLR_ARE_NS : Nat := BIT 4
def GICD_CTLR_ENABLE_G1NS : Nat := BIT 1
def GICD_CTLR_ENABLE_G0 : Nat := BIT 0
def GICD_TYPE_LINESNR : Nat := 0x01f
def GIC_REG_WIDTH : Nat := 32
def SPI_START : Nat := 32
def GIC_PRI_IRQ : Nat := 0xa0
def IRQ_SET_ALL : Nat := 0xffffffff

/-- The C operator `~` on an `unsigned long`. -/
def wordNot (cfg : Config) (x : Nat) : Nat := 2 ^ wordBits cfg - 1 - x % 2 ^ wordBits cfg

/-- The function `gicv3_do_wait_for_rwp`: `val` is read once; the body of
`while (val & GICD_CTLR_RWP)` is `return;`, so the function returns whether
or not the loop is entered. -/
def gicv3_do_wait_for_rwp {σ : Type} (dev : Device σ Reg) (st : Run σ Reg) : Run σ Reg :=
  let r := load dev Reg.ctlr st
  let val := r.1
  if val &&& GICD_CTLR_RWP ≠ 0 then
    r.2   -- loop body: `return;`
  else
    r.2   -- loop not entered, end of function

/-- The local `nr_lines = GIC_REG_WIDTH * ((type & GICD_TYPE_LINESNR) + 1)`. -/
def nrLines (type : Nat) : Nat :=
  (GIC_REG_WIDTH * ((type &&& GICD_TYPE_LINESNR) + 1)) % 2 ^ 32

/-- The local `priority` of `gic_v3_init`. -/
def priorityWord : Nat :=
  (GIC_PRI_IRQ <<< 24 ||| GIC_PRI_IRQ <<< 16 ||| GIC_PRI_IRQ <<< 8 ||| GIC_PRI_IRQ) % 2 ^ 32

/-- The `if ((ctlr & ctlr_mask) != ctlr_mask) { ... }` block of `gic_v3_init`,
entered with the value `ctlr` just read. -/
def ctlrBlock {σ : Type} (cfg : Config) (dev : Device σ Reg) (ctlr : Nat)
    (st : Run σ Reg) : Run σ Reg :=
  let ctlr_mask := GICD_CTLR_ARE_NS ||| GICD_CTLR_ENABLE_G1NS
  if ctlr &&& ctlr_mask ≠ ctlr_mask then
    let cleared := (ctlr &&& wordNot cfg GICD_CTLR_ENABLE_G1NS) % 2 ^ 32
    if ctlr ≠ ctlr &&& wordNot cfg GICD_CTLR_ENABLE_G1NS then
      let st1 := store dev Reg.ctlr cleared st
      let st2 := gicv3_do_wait_for_rwp dev st1
      let st3 := store dev Reg.ctlr (cleared ||| ctlr_mask) st2
      gicv3_do_wait_for_rwp dev st3
    else
      let st3 := store dev Reg.ctlr (ctlr ||| ctlr_mask) st
      gicv3_do_wait_for_rwp dev st3
  else st

/-- The function `gic_v3_init`; `initialized` is the value of the function's
static flag on entry. -/
def gic_v3_init {σ : Type} (cfg : Config) (dev : Device σ Reg) (initialized : Bool)
    (hw : σ) : InitResult σ Reg :=
  if initialized then ⟨0, initialized, hw, []⟩ else
  let st0 : Run σ Reg := ⟨hw, []⟩
  let r1 := load dev Reg.ctlr st0
  let st2 := ctlrBlock cfg dev r1.1 r1.2
  let r3 := load dev Reg.typer st2
  let type := r3.1
  let nr_lines := nrLines type
  -- Disable and clear all global interrupts
  let st4 := forLoop SPI_START 32 nr_lines (fun i st =>
    store dev (Reg.icpendrn (i / 32)) IRQ_SET_ALL
      (store dev (Reg.icenablern (i / 32)) IRQ_SET_ALL st)) r3.2
  -- Set level triggered
  let st5 := forLoop SPI_START 16 nr_lines (fun i st =>
    store dev (Reg.icfgrn (i / 16)) 0 st) st4
  -- Default priority for global interrupts
  let priority := priorityWord
  let st6 := forLoop SPI_START 4 nr_lines (fun i st =>
    store dev (Reg.ipriorityrn (i / 4)) priority st) st5
  ⟨0, true, st6.hw, st6.trace⟩

/-- Declared length of the array a register belongs to, for the indexed
fields of `struct gic_dist_map`; scalar fields have none. -/
def declaredLen : Reg → Option Nat
  | Reg.ctlr => none
  | Reg.typer => none
  | Reg.igrouprn _ => some 32
  | Reg.icenablern _ => some 32
  | Reg.icpendrn _ => some 32
  | Reg.ipriorityrn _ => some 255
  | Reg.icfgrn _ => some 64

/-- Index of an indexed register within its array. -/
def regIndex : Reg → Option Nat
  | Reg.ctlr => none
  | Reg.typer => none
  | Reg.igrouprn i => some i
  | Reg.icenablern i => some i
  | Reg.icpendrn i => some i
  | Reg.ipriorityrn i => some i
  | Reg.icfgrn i => some i

/-- The register is not in a per-line bank, or it is and covers only lines
from `SPI_START` on: index at least 1 in the banks with 32 lines per
register, at least 2 in `icfgrn` (16 lines per register), at least 8 in
`ipriorityrn` (4 lines per register). -/
def aboveSpiStart : Reg → Prop
  | Reg.ctlr => True
  | Reg.typer => True
  | Reg.igrouprn i => 1 ≤ i
  | Reg.icenablern i => 1 ≤ i
  | Reg.icpendrn i => 1 ≤ i
  | Reg.ipriorityrn i => 8 ≤ i
  | Reg.icfgrn i => 2 ≤ i

/-- A distributor whose `GICD_CTLR` reads back the last value written, with
the RWP bit set for the first `busy` reads that follow a write. -/
def rwpDevice (busy : Nat) : Device (Nat × Nat × Nat) Reg where
  read := fun s r =>
    match r with
    | Reg.ctlr => (if s.2.1 = 0 then s.1 else s.1 ||| GICD_CTLR_RWP, (s.1, s.2.1 - 1, s.2.2))
    | Reg.typer => (s.2.2, s)
    | _ => (0, s)
  write := fun s r v =>
    match r with
    | Reg.ctlr => (v, busy, s.2.2)
    | _ => s

end GicV3

/-! ## `smp_boot.c` -/

namespace Smp

/-- The fields of `struct elfloader_cpu` that `smp_boot.c` reads; a `NULL`
`compat` is `none`. -/
structure elfloader_cpu where
  compat : Option String
  cpu_id : Nat
deriving DecidableEq, Repr

/-- The fields of `struct image_info` that `non_boot_main` reads. -/
structure image_info where
  phys_region_start : Nat
  phys_region_end : Nat
  phys_virt_offset : Nat
  virt_entry : Nat
deriving DecidableEq, Repr

/-- How a function of `smp_boot.c` stops. -/
inductive Outcome where
  /-- It returned to its caller. -/
  | returned
  /-- It called `abort()`. -/
  | aborted
  /-- It read `elfloader_cpus` outside the array. -/
  | fault
  /-- The iteration budget ran out inside a loop. -/
  | spinning
  /-- Control is in the kernel, which has not returned. -/
  | inKernel
deriving DecidableEq, Repr

/-- The calls and stores of `smp_boot.c` that reach outside the function. -/
inductive Event where
  /-- The call `plat_cpu_on(&elfloader_cpus[index], core_entry, &core_stacks[stack][0])`
  and its return value. -/
  | cpu_on (index stack : Nat) (ret : Int)
  /-- One evaluation of `is_core_up(slot)` and its result. -/
  | poll (slot : Nat) (up : Bool)
  /-- The instruction `MSR("tpidr_el1", v)`. -/
  | msr_tpidr_el1 (v : Nat)
  | arm_disable_dcaches
  | non_boot_init
  | leave_hyp
  /-- The call `load_images(&kernel_info[id], &user_info[id], 1, ..., id)`. -/
  | load_images (id : Nat)
  | disable_caches_hyp
  | init_hyp_boot_vspace (id : Nat)
  | init_boot_vspace (id : Nat)
  /-- The store `pd_node_id = id`. -/
  | set_pd_node_id (id : Nat)
  | arm_enable_hyp_mmu (args : List Nat)
  | arm_enable_mmu (args : List Nat)
  | dsb
  /-- The store `core_up[slot] = value`. -/
  | core_up_write (slot : Nat) (value : Int)
  /-- The call through `(init_arm_kernel_t)entry` with its arguments in order. -/
  | kernel_call (entry : Nat) (args : List Nat)
  | abort
deriving DecidableEq, Repr

/-- What the primary core sees of the platform while it runs `init_cpus`. -/
structure Platform where
  /-- Value returned by `read_cpuid_mpidr()`. -/
  mpidr : Nat
  /-- The array `elfloader_cpus`, sentinel included. -/
  elfloader_cpus : List elfloader_cpu
  /-- Return value of `plat_cpu_on` for a table index and a stack index. -/
  plat_cpu_on : Nat → Nat → Int
  /-- Result of the `t`-th evaluation (from 0) of `is_core_up(slot)`. -/
  is_core_up : Nat → Nat → Bool

/-- The element `elfloader_cpus[i]` for an `int` index; `none` outside the array. -/
def cpuAt (tbl : List elfloader_cpu) (i : Int) : Option elfloader_cpu :=
  if i < 0 then none else tbl[i.toNat]?

/-- The first loop of `init_cpus`, entered at index `i` with `cpus` the
array from that index on: the value of `booting_cpu_index` after the loop
(`-1` when the sentinel is reached), `none` when the loop leaves the array. -/
def findBootCpu (mpidr : Nat) : List elfloader_cpu → Nat → Option Int
  | [], _ => none
  | e :: rest, i =>
    if e.compat = none then some (-1)
    else if e.cpu_id = mpidr then some (i : Int)
    else findBootCpu mpidr rest (i + 1)

/-- The loop `while (!is_core_up(slot));` from its `t`-th evaluation on:
whether the core was seen up within the budget, and the polls made. -/
def waitCoreUp (p : Platform) (slot : Nat) : Nat → Nat → Bool × List Event
  | 0, _ => (false, [])
  | fuel + 1, t =>
    if p.is_core_up slot t then (true, [Event.poll slot true])
    else
      let r := waitCoreUp p slot fuel (t + 1)
      (r.1, Event.poll slot false :: r.2)

/-- The second loop of `init_cpus` and the code after it, entered at the
loop condition with the given `i` and `num_cpus`.  `budget` bounds each
`while (!is_core_up(..))`, the first numeric argument bounds the `for`. -/
def bringUp (cfg : Config) (p : Platform) (booting_cpu_index start_index : Int)
    (budget : Nat) : Nat → Int → Nat → Outcome × List Event
  | 0, _, _ => (Outcome.spinning, [])
  | fuel + 1, i, num_cpus =>
    if num_cpus < cfg.CONFIG_MAX_NUM_NODES ∧ i ≠ start_index then
      if i = booting_cpu_index then
        bringUp cfg p booting_cpu_index start_index budget fuel (i + 1) num_cpus
      else
        match cpuAt p.elfloader_cpus i with
        | none => (Outcome.fault, [])
        | some e =>
          if e.compat = none then
            -- i = -1; continue; then i++
            bringUp cfg p booting_cpu_index start_index budget fuel (-1 + 1) num_cpus
          else
            let ret := p.plat_cpu_on i.toNat num_cpus
            if ret ≠ 0 then
              (Outcome.aborted, [Event.cpu_on i.toNat num_cpus ret, Event.abort])
            else
              let w := waitCoreUp p num_cpus budget 0
              if w.1 then
                let r := bringUp cfg p booting_cpu_index start_index budget fuel (i + 1)
                  (num_cpus + 1)
                (r.1, Event.cpu_on i.toNat num_cpus ret :: (w.2 ++ r.2))
              else
                (Outcome.spinning, Event.cpu_on i.toNat num_cpus ret :: w.2)
    else
      (Outcome.returned, if cfg.CONFIG_ARCH_AARCH64 then [Event.msr_tpidr_el1 0] else [])

/-- The function `init_cpus`, with an iteration budget `fuel` for its
second `for` loop and for each `while (!is_core_up(..))`. -/
def init_cpus (cfg : Config) (p : Platform) (fuel : Nat) : Outcome × List Event :=
  match findBootCpu p.mpidr p.elfloader_cpus 0 with
  | none => (Outcome.fault, [])
  | some booting_cpu_index =>
    if booting_cpu_index = -1 then (Outcome.aborted, [Event.abort])
    else
      let start_index := booting_cpu_index
      bringUp cfg p booting_cpu_index start_index fuel fuel (start_index + 1) 1

/-- What `load_images` returns and leaves in `kernel_info[id]`,
`user_info[id]`, `dtb[id]` and `dtb_size[id]`. -/
structure LoadResult where
  ret : Int
  kernel_info : image_info
  user_info : image_info
  dtb : Nat
  dtb_size : Nat
deriving DecidableEq, Repr

/-- What a secondary core sees of its environment while it runs `non_boot_main`. -/
structure CoreEnv where
  /-- Result of the `k`-th call (from 0) of `is_hyp_mode()`. -/
  is_hyp_mode : Nat → Bool
  /-- Effect of `load_images` for a core index. -/
  load_images : Nat → LoadResult
  /-- The address `(word_t)_boot_pgd_up[id]`. -/
  boot_pgd_up : Nat → Nat
  /-- The address `(word_t)_boot_pgd_down[id]`. -/
  boot_pgd_down : Nat → Nat
  /-- Whether the call into the kernel returns. -/
  kernel_returns : Bool

/-- Result of `non_boot_main`: how it stopped, its events, and the array `core_up`. -/
structure CoreResult where
  outcome : Outcome
  trace : List Event
  core_up : Nat → Int

/-- The block of `non_boot_main` under `/* Setup MMU. */`, where `hyp` is
what `is_hyp_mode()` returns there. -/
def setupMmu (cfg : Config) (hyp : Bool) (id : Nat) : List Event :=
  if hyp then
    (if cfg.CONFIG_ARCH_AARCH64 then [Event.disable_caches_hyp] else []) ++
      [Event.init_hyp_boot_vspace id]
  else
    -- If we are not in HYP mode, we enable the SV MMU and paging
    [Event.init_boot_vspace id]

/-- The `if (is_hyp_mode())` statement of `non_boot_main` under
`/* Enable the MMU, and enter the kernel. */`, where `hyp` is what
`is_hyp_mode()` returns there. -/
def enableMmu (cfg : Config) (env : CoreEnv) (hyp : Bool) (id : Nat) : List Event :=
  if hyp then
    if cfg.CONFIG_ARCH_AARCH64 then [Event.arm_enable_hyp_mmu [env.boot_pgd_down id]]
    else [Event.set_pd_node_id id, Event.arm_enable_hyp_mmu []]
  else
    if cfg.CONFIG_ARCH_AARCH64 then
      [Event.arm_enable_mmu [env.boot_pgd_up id, env.boot_pgd_down id]]
    else [Event.set_pd_node_id id, Event.arm_enable_mmu []]

/-- The statements of `non_boot_main` before the call of `load_images`. -/
def beforeLoad (cfg : Config) (env : CoreEnv) : List Event :=
  (if cfg.CONFIG_ARCH_AARCH64 then [] else [Event.arm_disable_dcaches]) ++
    -- Initialise any platform-specific per-core state
    [Event.non_boot_init] ++
    (if cfg.CONFIG_ARM_HYPERVISOR_SUPPORT then []
      else if env.is_hyp_mode 0 then [Event.leave_hyp] else [])

/-- The function `non_boot_main`.  Core indices are below
`CONFIG_MAX_NUM_NODES`, so the conversion of `id` to `int` in
`core_up[id] = id` keeps its value. -/
def non_boot_main (cfg : Config) (env : CoreEnv) (core_up : Nat → Int) (id : Nat) :
    CoreResult :=
  let t2 := beforeLoad cfg env
  -- the number of evaluations of `is_hyp_mode()` so far
  let calls := if cfg.CONFIG_ARM_HYPERVISOR_SUPPORT then 0 else 1
  let l := env.load_images id
  let t3 := t2 ++ [Event.load_images id]
  if l.ret ≠ 0 then ⟨Outcome.aborted, t3 ++ [Event.abort], core_up⟩ else
  -- Setup MMU.
  let t4 := t3 ++ setupMmu cfg (env.is_hyp_mode calls) id
  -- Enable the MMU, and enter the kernel.
  let t5 := t4 ++ enableMmu cfg env (env.is_hyp_mode (calls + 1)) id
  -- Signal that we've initialized this core.
  let t6 := t5 ++ [Event.dsb, Event.core_up_write id (id : Int), Event.dsb]
  let core_up1 : Nat → Int := fun slot => if slot = id then (id : Int) else core_up slot
  -- Jump to the kernel.
  let t7 := t6 ++ [Event.kernel_call l.kernel_info.virt_entry
    [l.user_info.phys_region_start, l.user_info.phys_region_end, l.user_info.phys_virt_offset,
      l.user_info.virt_entry, l.dtb, l.dtb_size]]
  if env.kernel_returns then ⟨Outcome.aborted, t7 ++ [Event.abort], core_up1⟩
  else ⟨Outcome.inKernel, t7, core_up1⟩

/-- A core environment: images load with the given return value, the core is
in hyp mode, and the kernel does not return. -/
def demoEnv (ret : Int) : CoreEnv where
  is_hyp_mode := fun _ => true
  load_images := fun id =>
    ⟨ret, ⟨0x80000000, 0x80400000, 0x7f80000000, 0xffffff8000000000⟩,
      ⟨0x80400000 + id * 0x100000, 0x80500000 + id * 0x100000, 0x80000000, 0x400000⟩,
      0x80f00000, 0x8000⟩
  boot_pgd_up := fun id => 0x81000000 + id * 0x1000
  boot_pgd_down := fun id => 0x81100000 + id * 0x1000
  kernel_returns := false

/-- The array `elfloader_cpus` has `n` entries with a non-`NULL` `compat`
followed by a sentinel whose `compat` is `NULL`. -/
def SentinelTerminated (tbl : List elfloader_cpu) (n : Nat) : Prop :=
  (∀ i, i < n → (tbl[i]?.bind (fun e => e.compat)).isSome = true) ∧
    tbl[n]?.map (fun e => e.compat) = some none

/-- The events of the `k`-th activation: the power-on request for table index
`index` with stack `core_stacks[k]`, returning 0, then the polls of slot `k`:
`polls` that see the core down and one that sees it up. -/
def activation (index k polls : Nat) : List Event :=
  Event.cpu_on index k 0 :: (List.replicate polls (Event.poll k false) ++ [Event.poll k true])

/-- The events of `init_cpus` after its second loop. -/
def afterLoop (cfg : Config) : List Event :=
  if cfg.CONFIG_ARCH_AARCH64 then [Event.msr_tpidr_el1 0] else []

/-- A table of `n` cores with identifiers `0, 1, .., n - 1` and its sentinel. -/
def demoTable (n : Nat) : List elfloader_cpu :=
  (List.range n).map (fun i => ⟨some "arm,cortex-a53", i⟩) ++ [⟨none, 0⟩]

/-- A platform with `n` cores booting on the core with identifier `mpidr`,
on which every power-on succeeds and every core is seen up at the second poll. -/
def demoPlatform (n mpidr : Nat) : Platform where
  mpidr := mpidr
  elfloader_cpus := demoTable n
  plat_cpu_on := fun _ _ => 0
  is_core_up := fun _ t => decide (1 ≤ t)

end Smp

/-- The register file obtained from `m` by the writes of a trace, in order. -/
def replay {R : Type} [DecidableEq R] : List (Access R) → (R → Nat) → R → Nat
  | [], m => m
  | Access.rd _ _ :: tr, m => replay tr m
  | Access.wr r v :: tr, m => replay tr (fun r1 => if r1 = r then v else m r1)

/-- A register file: reads return what was last written. -/
def memDevice (R : Type) [DecidableEq R] : Device (R → Nat) R where
  read := fun m r => (m r, m)
  write := fun m r v => fun r1 => if r1 = r then v else m r1

/-! ## Closed forms used in the proofs -/

namespace GicV2

/-- The stores of the four loops of `gic_v2_init` for a line count `nr`. -/
def lineWrites (cfg : Config) (nr : Nat) : List (Access Reg) :=
  (loopIdx SPI_START 32 nr).flatMap (fun i =>
      [Access.wr (Reg.enable_clr (i / 32)) (IRQ_SET_ALL % 2 ^ 32),
        Access.wr (Reg.pending_clr (i / 32)) (IRQ_SET_ALL % 2 ^ 32)]) ++
    ((loopIdx SPI_START 16 nr).flatMap (fun i =>
      [Access.wr (Reg.config (i / 16)) (0x55555555 % 2 ^ 32)]) ++
    ((loopIdx SPI_START 32 nr).flatMap (fun i =>
      [Access.wr (Reg.security (i >>> 5)) (securityValue cfg % 2 ^ 32)]) ++
    (loopIdx SPI_START 4 nr).flatMap (fun i =>
      [Access.wr (Reg.priority (i / 4)) (priorityWord cfg % 2 ^ 32)])))

/-- The accesses to `enable` at the start of `gic_v2_init` when `c` is read. -/
def ctlrAccesses (c : Nat) : List (Access Reg) :=
  if c &&& BIT 0 ≠ BIT 0 then
    [Access.rd Reg.enable c, Access.wr Reg.enable ((c ||| BIT 0) % 2 ^ 32)]
  else [Access.rd Reg.enable c]

end GicV2

namespace GicV3

/-- The stores of the three loops of `gic_v3_init` for a line count `nr`. -/
def lineWrites (nr : Nat) : List (Access Reg) :=
  (loopIdx SPI_START 32 nr).flatMap (fun i =>
      [Access.wr (Reg.icenablern (i / 32)) (IRQ_SET_ALL % 2 ^ 32),
        Access.wr (Reg.icpendrn (i / 32)) (IRQ_SET_ALL % 2 ^ 32)]) ++
    ((loopIdx SPI_START 16 nr).flatMap (fun i =>
      [Access.wr (Reg.icfgrn (i / 16)) (0 % 2 ^ 32)]) ++
    (loopIdx SPI_START 4 nr).flatMap (fun i =>
      [Access.wr (Reg.ipriorityrn (i / 4)) (priorityWord % 2 ^ 32)]))

end GicV3

/-- On a register file, the state of a run is the replay of its trace. -/
def Tracked {R : Type} [DecidableEq R] (m : R → Nat) (st : Run (R → Nat) R) : Prop :=
  st.hw = replay st.trace m

/-! ## Loops -/

theorem load_trace {σ R : Type} (dev : Device σ R) (r : R) (st : Run σ R) :
    (load dev r st).2.trace = st.trace ++ [Access.rd r (load dev r st).1] := rfl

theorem store_trace {σ R : Type} (dev : Device σ R) (r : R) (v : Nat) (st : Run σ R) :
    (store dev r v st).trace = st.trace ++ [Access.wr r (v % 2 ^ 32)] := rfl

/-- A loop whose body only appends `ev i` to the trace appends the
concatenation of `ev` over the values of the loop variable. -/
theorem forLoopFuel_trace {σ R : Type} (body : Nat → Run σ R → Run σ R)
    (ev : Nat → List (Access R))
    (hbody : ∀ i st, (body i st).trace = st.trace ++ ev i) (step bound : Nat) :
    ∀ (fuel i : Nat) (st : Run σ R),
      (forLoopFuel body step bound fuel i st).trace =
        st.trace ++ (loopIdxFuel step bound fuel i).flatMap ev := by
  intro fuel
  induction fuel with
  | zero => intro i st; simp [forLoopFuel, loopIdxFuel]
  | succ fuel ih =>
    intro i st
    by_cases h : i < bound
    · simp [forLoopFuel, loopIdxFuel, h, ih, hbody, List.append_assoc]
    · simp [forLoopFuel, loopIdxFuel, h]

theorem forLoop_trace {σ R : Type} (body : Nat → Run σ R → Run σ R)
    (ev : Nat → List (Access R))
    (hbody : ∀ i st, (body i st).trace = st.trace ++ ev i) (i0 step bound : Nat)
    (st : Run σ R) :
    (forLoop i0 step bound body st).trace = st.trace ++ (loopIdx i0 step bound).flatMap ev :=
  forLoopFuel_trace body ev hbody step bound bound i0 st

/-- Every value of the loop variable is at least the start and below the bound. -/
theorem loopIdxFuel_bounds (step bound : Nat) :
    ∀ (fuel i j : Nat), j ∈ loopIdxFuel step bound fuel i → i ≤ j ∧ j < bound := by
  intro fuel
  induction fuel with
  | zero => intro i j h; simp [loopIdxFuel] at h
  | succ fuel ih =>
    intro i j h
    by_cases hi : i < bound
    · simp only [loopIdxFuel, hi, if_true, List.mem_cons] at h
      rcases h with rfl | h
      · exact ⟨le_refl _, hi⟩
      · have := ih (i + step) j h
        omega
    · simp [loopIdxFuel, hi] at h

theorem loopIdx_bounds (i0 step bound j : Nat) (h : j ∈ loopIdx i0 step bound) :
    i0 ≤ j ∧ j < bound :=
  loopIdxFuel_bounds step bound bound i0 j h

/-- With a positive step the budget suffices: every `i + k * step` below the
bound is a value of the loop variable. -/
theorem loopIdxFuel_mem (step bound : Nat) :
    ∀ (fuel i k : Nat), i + k * step < bound → k < fuel →
      i + k * step ∈ loopIdxFuel step bound fuel i := by
  intro fuel
  induction fuel with
  | zero => intro i k _ hk; omega
  | succ fuel ih =>
    intro i k hlt hk
    have hi : i < bound := lt_of_le_of_lt (Nat.le_add_right _ _) hlt
    simp only [loopIdxFuel, hi, if_true, List.mem_cons]
    rcases Nat.eq_zero_or_pos k with rfl | hpos
    · left; simp
    · right
      obtain ⟨k1, rfl⟩ : ∃ k1, k = k1 + 1 := ⟨k - 1, by omega⟩
      have e : i + (k1 + 1) * step = (i + step) + k1 * step := by ring
      rw [e] at hlt ⊢
      exact ih (i + step) k1 hlt (by omega)

theorem loopIdx_mem (i0 step bound k : Nat) (hstep : 0 < step)
    (h : i0 + k * step < bound) : i0 + k * step ∈ loopIdx i0 step bound := by
  apply loopIdxFuel_mem step bound bound i0 k h
  have : k ≤ k * step := Nat.le_mul_of_pos_right k hstep
  omega

/-! ## The accesses of `gic_v2_init` -/

namespace GicV2

/-- Shape of the trace of a first call of `gic_v2_init`. -/
theorem gic_v2_init_trace {σ : Type} (cfg : Config) (dev : Device σ Reg) (hw : σ) :
    ∃ c t, (gic_v2_init cfg dev false hw).trace =
      ctlrAccesses c ++ Access.rd Reg.ic_type t :: lineWrites cfg (nrLines t) := by
  simp only [gic_v2_init, Bool.false_eq_true, if_false]
  rw [forLoop_trace _ (fun i => [Access.wr (Reg.priority (i / 4)) (priorityWord cfg % 2 ^ 32)])
    (by intro i st; simp [store_trace])]
  rw [forLoop_trace _ (fun i => [Access.wr (Reg.security (i >>> 5)) (securityValue cfg % 2 ^ 32)])
    (by intro i st; simp [store_trace])]
  rw [forLoop_trace _ (fun i => [Access.wr (Reg.config (i / 16)) (0x55555555 % 2 ^ 32)])
    (by intro i st; simp [store_trace])]
  rw [forLoop_trace _ (fun i => [Access.wr (Reg.enable_clr (i / 32)) (IRQ_SET_ALL % 2 ^ 32),
        Access.wr (Reg.pending_clr (i / 32)) (IRQ_SET_ALL % 2 ^ 32)])
    (by intro i st; simp [store_trace])]
  rw [load_trace]
  generalize (load dev Reg.ic_type _).1 = t
  refine ⟨(load dev Reg.enable ⟨hw, []⟩).1, t, ?_⟩
  simp only [lineWrites, ctlrAccesses, List.append_assoc, List.singleton_append]
  split
  · simp [store_trace, load_trace]
  · simp [load_trace]

end GicV2

/-! ## The accesses of `gic_v3_init` -/

namespace GicV3

/-- The wait performs one read of `GICD_CTLR` and nothing else, whatever is read. -/
theorem gicv3_do_wait_for_rwp_trace {σ : Type} (dev : Device σ Reg) (st : Run σ Reg) :
    (gicv3_do_wait_for_rwp dev st).trace =
      st.trace ++ [Access.rd Reg.ctlr ((dev.read st.hw Reg.ctlr).1 % 2 ^ 32)] := by
  unfold gicv3_do_wait_for_rwp
  dsimp only
  split <;> rfl

theorem ctlrBlock_trace {σ : Type} (cfg : Config) (dev : Device σ Reg) (ctlr : Nat)
    (st : Run σ Reg) :
    ∃ acc, (ctlrBlock cfg dev ctlr st).trace = st.trace ++ acc ∧
      ∀ a ∈ acc, a.reg = Reg.ctlr := by
  unfold ctlrBlock
  dsimp only
  by_cases h1 : ctlr &&& (GICD_CTLR_ARE_NS ||| GICD_CTLR_ENABLE_G1NS) ≠
      GICD_CTLR_ARE_NS ||| GICD_CTLR_ENABLE_G1NS
  · rw [if_pos h1]
    by_cases h2 : ctlr ≠ ctlr &&& wordNot cfg GICD_CTLR_ENABLE_G1NS
    · rw [if_pos h2]
      simp only [gicv3_do_wait_for_rwp_trace, store_trace, List.append_assoc]
      exact ⟨_, rfl, by simp [Access.reg]⟩
    · rw [if_neg h2]
      simp only [gicv3_do_wait_for_rwp_trace, store_trace, List.append_assoc]
      exact ⟨_, rfl, by simp [Access.reg]⟩
  · rw [if_neg h1]
    exact ⟨[], by simp, by simp⟩

/-- Shape of the trace of a first call of `gic_v3_init`. -/
theorem gic_v3_init_trace {σ : Type} (cfg : Config) (dev : Device σ Reg) (hw : σ) :
    ∃ pre t, (∀ a ∈ pre, a.reg = Reg.ctlr) ∧
      (gic_v3_init cfg dev false hw).trace =
        pre ++ Access.rd Reg.typer t :: lineWrites (nrLines t) := by
  simp only [gic_v3_init, Bool.false_eq_true, if_false]
  rw [forLoop_trace _ (fun i => [Access.wr (Reg.ipriorityrn (i / 4)) (priorityWord % 2 ^ 32)])
    (by intro i st; simp [store_trace])]
  rw [forLoop_trace _ (fun i => [Access.wr (Reg.icfgrn (i / 16)) (0 % 2 ^ 32)])
    (by intro i st; simp [store_trace])]
  rw [forLoop_trace _ (fun i => [Access.wr (Reg.icenablern (i / 32)) (IRQ_SET_ALL % 2 ^ 32),
        Access.wr (Reg.icpendrn (i / 32)) (IRQ_SET_ALL % 2 ^ 32)])
    (by intro i st; simp [store_trace])]
  rw [load_trace]
  generalize (load dev Reg.typer _).1 = t
  obtain ⟨acc, hacc, hreg⟩ := ctlrBlock_trace cfg dev (load dev Reg.ctlr ⟨hw, []⟩).1
    (load dev Reg.ctlr ⟨hw, []⟩).2
  refine ⟨Access.rd Reg.ctlr (load dev Reg.ctlr ⟨hw, []⟩).1 :: acc, t, ?_, ?_⟩
  · intro a ha
    rcases List.mem_cons.1 ha with rfl | h
    · rfl
    · exact hreg a h
  · rw [hacc, load_trace]
    simp [lineWrites, List.append_assoc]

end GicV3

namespace GicV2

theorem ctlrAccesses_reg (c : Nat) : ∀ a ∈ ctlrAccesses c, a.reg = Reg.enable := by
  intro a ha
  unfold ctlrAccesses at ha
  split at ha <;> simp at ha <;> rcases ha with rfl | rfl <;> rfl

end GicV2

/-! ## Facts shared by the claims about the GIC drivers -/

namespace GicV2

theorem v2_nrLines_eq (t : Nat) : nrLines t = 32 * ((t &&& 0x1f) + 1) := by
  have h : t &&& 0x1f ≤ 0x1f := Nat.and_le_right
  unfold nrLines GIC_REG_WIDTH GICD_TYPE_LINESNR
  apply Nat.mod_eq_of_lt
  omega

theorem securityValue_lt (cfg : Config) :
    securityValue cfg % 4294967296 = securityValue cfg := by
  unfold securityValue
  split <;> rfl

theorem priorityWord_eq (cfg : Config) :
    priorityWord cfg % 4294967296 = GIC_PRI_IRQ cfg * 0x01010101 := by
  unfold priorityWord GIC_PRI_IRQ
  split <;> rfl

theorem v2_mem_lineWrites (cfg : Config) (nr : Nat) (a : Access Reg) :
    a ∈ lineWrites cfg nr ↔
      (∃ i ∈ loopIdx 32 32 nr, a = Access.wr (Reg.enable_clr (i / 32)) 0xffffffff ∨
        a = Access.wr (Reg.pending_clr (i / 32)) 0xffffffff) ∨
      (∃ i ∈ loopIdx 32 16 nr, a = Access.wr (Reg.config (i / 16)) 0x55555555) ∨
      (∃ i ∈ loopIdx 32 32 nr, a = Access.wr (Reg.security (i / 32)) (securityValue cfg)) ∨
      (∃ i ∈ loopIdx 32 4 nr, a = Access.wr (Reg.priority (i / 4))
        (GIC_PRI_IRQ cfg * 0x01010101)) := by
  simp [lineWrites, List.mem_flatMap, SPI_START, IRQ_SET_ALL, securityValue_lt, priorityWord_eq,
    Nat.shiftRight_eq_div_pow]

/-- The only read of `ic_type` in a first call is the one that fixes `nr_lines`. -/
theorem v2_trace_of_type_read {σ : Type} (cfg : Config) (dev : Device σ Reg) (hw : σ) (t : Nat)
    (ht : Access.rd Reg.ic_type t ∈ (gic_v2_init cfg dev false hw).trace) :
    ∃ c, (gic_v2_init cfg dev false hw).trace =
      ctlrAccesses c ++ Access.rd Reg.ic_type t :: lineWrites cfg (nrLines t) := by
  obtain ⟨c, t1, h⟩ := gic_v2_init_trace cfg dev hw
  rw [h] at ht ⊢
  rcases List.mem_append.1 ht with h1 | h1
  · have := ctlrAccesses_reg c _ h1
    simp [Access.reg] at this
  · rcases List.mem_cons.1 h1 with h2 | h2
    · injection h2 with _ h3
      subst h3
      exact ⟨c, rfl⟩
    · rw [v2_mem_lineWrites] at h2
      rcases h2 with ⟨i, _, h3 | h3⟩ | ⟨i, _, h3⟩ | ⟨i, _, h3⟩ | ⟨i, _, h3⟩ <;> cases h3

end GicV2

namespace GicV3

theorem v3_nrLines_eq (t : Nat) : nrLines t = 32 * ((t &&& 0x1f) + 1) := by
  have h : t &&& 0x1f ≤ 0x1f := Nat.and_le_right
  unfold nrLines GIC_REG_WIDTH GICD_TYPE_LINESNR
  apply Nat.mod_eq_of_lt
  omega

theorem v3_mem_lineWrites (nr : Nat) (a : Access Reg) :
    a ∈ lineWrites nr ↔
      (∃ i ∈ loopIdx 32 32 nr, a = Access.wr (Reg.icenablern (i / 32)) 0xffffffff ∨
        a = Access.wr (Reg.icpendrn (i / 32)) 0xffffffff) ∨
      (∃ i ∈ loopIdx 32 16 nr, a = Access.wr (Reg.icfgrn (i / 16)) 0) ∨
      (∃ i ∈ loopIdx 32 4 nr, a = Access.wr (Reg.ipriorityrn (i / 4)) 0xa0a0a0a0) := by
  have hp : priorityWord % 4294967296 = 0xa0a0a0a0 := rfl
  simp [lineWrites, List.mem_flatMap, SPI_START, IRQ_SET_ALL, hp]

/-- The only read of `typer` in a first call is the one that fixes `nr_lines`. -/
theorem v3_trace_of_type_read {σ : Type} (cfg : Config) (dev : Device σ Reg) (hw : σ) (t : Nat)
    (ht : Access.rd Reg.typer t ∈ (gic_v3_init cfg dev false hw).trace) :
    ∃ pre, (∀ a ∈ pre, a.reg = Reg.ctlr) ∧ (gic_v3_init cfg dev false hw).trace =
      pre ++ Access.rd Reg.typer t :: lineWrites (nrLines t) := by
  obtain ⟨pre, t1, hpre, h⟩ := gic_v3_init_trace cfg dev hw
  rw [h] at ht ⊢
  rcases List.mem_append.1 ht with h1 | h1
  · have := hpre _ h1
    simp [Access.reg] at this
  · rcases List.mem_cons.1 h1 with h2 | h2
    · injection h2 with _ h3
      subst h3
      exact ⟨pre, hpre, rfl⟩
    · rw [v3_mem_lineWrites] at h2
      rcases h2 with ⟨i, _, h3 | h3⟩ | ⟨i, _, h3⟩ | ⟨i, _, h3⟩ <;> cases h3

end GicV3

/-! ## Register files -/

theorem replay_append {R : Type} [DecidableEq R] (tr1 tr2 : List (Access R)) :
    ∀ m : R → Nat, replay (tr1 ++ tr2) m = replay tr2 (replay tr1 m) := by
  induction tr1 with
  | nil => intro m; rfl
  | cons a tr ih =>
    intro m
    cases a with
    | rd r v => exact ih m
    | wr r v => exact ih _

/-- A register no write of the trace targets keeps its value. -/
theorem replay_untouched {R : Type} [DecidableEq R] (r : R) (tr : List (Access R)) :
    ∀ m : R → Nat, (∀ v, Access.wr r v ∉ tr) → replay tr m r = m r := by
  induction tr with
  | nil => intro m _; rfl
  | cons a tr ih =>
    intro m h
    have htl : ∀ v, Access.wr r v ∉ tr := fun v hv => h v (List.mem_cons_of_mem _ hv)
    cases a with
    | rd r1 v1 => exact ih m htl
    | wr r1 v1 =>
      have hne : r ≠ r1 := by
        rintro rfl
        exact h v1 (List.mem_cons_self _ _)
      show replay tr _ r = m r
      rw [ih _ htl]
      simp [hne]

theorem load_tracked {R : Type} [DecidableEq R] (m : R → Nat) (r : R) (st : Run (R → Nat) R)
    (h : Tracked m st) : Tracked m (load (memDevice R) r st).2 := by
  unfold Tracked at h ⊢
  simp only [load, memDevice]
  rw [replay_append, ← h]
  rfl

theorem store_tracked {R : Type} [DecidableEq R] (m : R → Nat) (r : R) (v : Nat)
    (st : Run (R → Nat) R) (h : Tracked m st) : Tracked m (store (memDevice R) r v st) := by
  unfold Tracked at h ⊢
  simp only [store, memDevice]
  rw [replay_append, ← h]
  rfl

theorem forLoopFuel_inv {S : Type} (P : S → Prop) (body : Nat → S → S)
    (hbody : ∀ i s, P s → P (body i s)) (step bound : Nat) :
    ∀ (fuel i : Nat) (s : S), P s → P (forLoopFuel body step bound fuel i s) := by
  intro fuel
  induction fuel with
  | zero => intro i s h; exact h
  | succ fuel ih =>
    intro i s h
    by_cases hi : i < bound
    · simp only [forLoopFuel, hi, if_true]
      exact ih _ _ (hbody i s h)
    · simp only [forLoopFuel, hi, if_false]
      exact h

theorem forLoop_inv {S : Type} (P : S → Prop) (body : Nat → S → S)
    (hbody : ∀ i s, P s → P (body i s)) (i0 step bound : Nat) (s : S) (h : P s) :
    P (forLoop i0 step bound body s) :=
  forLoopFuel_inv P body hbody step bound bound i0 s h

theorem GicV2.gic_v2_init_tracked (cfg : Config) (m : GicV2.Reg → Nat) :
    (GicV2.gic_v2_init cfg (memDevice GicV2.Reg) false m).hw =
      replay (GicV2.gic_v2_init cfg (memDevice GicV2.Reg) false m).trace m := by
  simp only [GicV2.gic_v2_init, Bool.false_eq_true, if_false]
  apply forLoop_inv (Tracked m) _ (fun i s h => store_tracked m _ _ _ h)
  apply forLoop_inv (Tracked m) _ (fun i s h => store_tracked m _ _ _ h)
  apply forLoop_inv (Tracked m) _ (fun i s h => store_tracked m _ _ _ h)
  apply forLoop_inv (Tracked m) _
    (fun i s h => store_tracked m _ _ _ (store_tracked m _ _ _ h))
  apply load_tracked
  have h0 : Tracked m (load (memDevice GicV2.Reg) GicV2.Reg.enable ⟨m, []⟩).2 :=
    load_tracked m _ _ rfl
  split
  · exact store_tracked m _ _ _ h0
  · exact h0

theorem GicV3.gicv3_do_wait_for_rwp_tracked (m : GicV3.Reg → Nat)
    (st : Run (GicV3.Reg → Nat) GicV3.Reg) (h : Tracked m st) :
    Tracked m (GicV3.gicv3_do_wait_for_rwp (memDevice GicV3.Reg) st) := by
  unfold GicV3.gicv3_do_wait_for_rwp
  dsimp only
  split <;> exact load_tracked m _ _ h

theorem GicV3.ctlrBlock_tracked (cfg : Config) (m : GicV3.Reg → Nat) (ctlr : Nat)
    (st : Run (GicV3.Reg → Nat) GicV3.Reg) (h : Tracked m st) :
    Tracked m (GicV3.ctlrBlock cfg (memDevice GicV3.Reg) ctlr st) := by
  unfold GicV3.ctlrBlock
  dsimp only
  split
  · split
    · exact GicV3.gicv3_do_wait_for_rwp_tracked m _ (store_tracked m _ _ _
        (GicV3.gicv3_do_wait_for_rwp_tracked m _ (store_tracked m _ _ _ h)))
    · exact GicV3.gicv3_do_wait_for_rwp_tracked m _ (store_tracked m _ _ _ h)
  · exact h

theorem GicV3.gic_v3_init_tracked (cfg : Config) (m : GicV3.Reg → Nat) :
    (GicV3.gic_v3_init cfg (memDevice GicV3.Reg) false m).hw =
      replay (GicV3.gic_v3_init cfg (memDevice GicV3.Reg) false m).trace m := by
  simp only [GicV3.gic_v3_init, Bool.false_eq_true, if_false]
  apply forLoop_inv (Tracked m) _ (fun i s h => store_tracked m _ _ _ h)
  apply forLoop_inv (Tracked m) _ (fun i s h => store_tracked m _ _ _ h)
  apply forLoop_inv (Tracked m) _
    (fun i s h => store_tracked m _ _ _ (store_tracked m _ _ _ h))
  apply load_tracked
  apply GicV3.ctlrBlock_tracked
  exact load_tracked m _ _ rfl

/-! ## Claims about the GIC drivers -/

theorem GicV2.v2_write_aboveSpiStart {σ : Type} (cfg : Config) (dev : Device σ GicV2.Reg)
    (hw : σ) (r : GicV2.Reg) (v : Nat)
    (h : Access.wr r v ∈ (GicV2.gic_v2_init cfg dev false hw).trace) :
    GicV2.aboveSpiStart r := by
  obtain ⟨c, t, ht⟩ := GicV2.gic_v2_init_trace cfg dev hw
  rw [ht] at h
  rcases List.mem_append.1 h with h1 | h1
  · have := GicV2.ctlrAccesses_reg c _ h1
    simp only [Access.reg] at this
    subst this
    trivial
  · rcases List.mem_cons.1 h1 with h2 | h2
    · cases h2
    · rw [GicV2.v2_mem_lineWrites] at h2
      rcases h2 with ⟨i, hi, h3 | h3⟩ | ⟨i, hi, h3⟩ | ⟨i, hi, h3⟩ | ⟨i, hi, h3⟩ <;>
        · have hb := (loopIdx_bounds _ _ _ _ hi).1
          injection h3 with h4 _
          subst h4
          simp only [GicV2.aboveSpiStart]
          omega

theorem GicV3.v3_write_aboveSpiStart {σ : Type} (cfg : Config) (dev : Device σ GicV3.Reg)
    (hw : σ) (r : GicV3.Reg) (v : Nat)
    (h : Access.wr r v ∈ (GicV3.gic_v3_init cfg dev false hw).trace) :
    GicV3.aboveSpiStart r := by
  obtain ⟨pre, t, hpre, ht⟩ := GicV3.gic_v3_init_trace cfg dev hw
  rw [ht] at h
  rcases List.mem_append.1 h with h1 | h1
  · have := hpre _ h1
    simp only [Access.reg] at this
    subst this
    trivial
  · rcases List.mem_cons.1 h1 with h2 | h2
    · cases h2
    · rw [GicV3.v3_mem_lineWrites] at h2
      rcases h2 with ⟨i, hi, h3 | h3⟩ | ⟨i, hi, h3⟩ | ⟨i, hi, h3⟩ <;>
        · have hb := (loopIdx_bounds _ _ _ _ hi).1
          injection h3 with h4 _
          subst h4
          simp only [GicV3.aboveSpiStart]
          omega

/-- C5: in a first call of `gic_v2_init` and of `gic_v3_init`, on any device
and whatever the type register reports, every write to a per-line bank has
index at least 1 (banks with 32 lines per register), at least 2 (config) or
at least 8 (priority); on a register file, every register of these banks
below those indices, that is every register covering lines 0..31, holds
after the call the value it held before. -/
theorem gic_init_leaves_private_lines {σ₂ σ₃ : Type} (cfg : Config)
    (dev2 : Device σ₂ GicV2.Reg) (hw2 : σ₂) (dev3 : Device σ₃ GicV3.Reg) (hw3 : σ₃) :
    (∀ r v, Access.wr r v ∈ (GicV2.gic_v2_init cfg dev2 false hw2).trace →
        GicV2.aboveSpiStart r) ∧
      (∀ r v, Access.wr r v ∈ (GicV3.gic_v3_init cfg dev3 false hw3).trace →
        GicV3.aboveSpiStart r) ∧
      (∀ (m : GicV2.Reg → Nat) (r : GicV2.Reg), ¬ GicV2.aboveSpiStart r →
        (GicV2.gic_v2_init cfg (memDevice GicV2.Reg) false m).hw r = m r) ∧
      (∀ (m : GicV3.Reg → Nat) (r : GicV3.Reg), ¬ GicV3.aboveSpiStart r →
        (GicV3.gic_v3_init cfg (memDevice GicV3.Reg) false m).hw r = m r) := by
  refine ⟨GicV2.v2_write_aboveSpiStart cfg dev2 hw2, GicV3.v3_write_aboveSpiStart cfg dev3 hw3, ?_, ?_⟩
  · intro m r hr
    rw [GicV2.gic_v2_init_tracked]
    exact replay_untouched r _ m (fun v hv => hr (GicV2.v2_write_aboveSpiStart cfg _ m r v hv))
  · intro m r hr
    rw [GicV3.gic_v3_init_tracked]
    exact replay_untouched r _ m (fun v hv => hr (GicV3.v3_write_aboveSpiStart cfg _ m r v hv))

/-- C6: for `gic_v2_init` and `gic_v3_init`, on any device, from any hardware
state and any value of the one-time flag: a call completes with the flag set,
and a second call returns 0 without any register access, leaving the
hardware state as the first call left it. -/
theorem gic_init_second_call_is_noop {σ₂ σ₃ : Type} (cfg : Config) (flag : Bool)
    (dev2 : Device σ₂ GicV2.Reg) (hw2 : σ₂) (dev3 : Device σ₃ GicV3.Reg) (hw3 : σ₃) :
    ((GicV2.gic_v2_init cfg dev2 flag hw2).ret = 0 ∧
      (GicV2.gic_v2_init cfg dev2 flag hw2).initialized = true ∧
      (GicV2.gic_v2_init cfg dev2 (GicV2.gic_v2_init cfg dev2 flag hw2).initialized
        (GicV2.gic_v2_init cfg dev2 flag hw2).hw).trace = [] ∧
      (GicV2.gic_v2_init cfg dev2 (GicV2.gic_v2_init cfg dev2 flag hw2).initialized
        (GicV2.gic_v2_init cfg dev2 flag hw2).hw).ret = 0 ∧
      (GicV2.gic_v2_init cfg dev2 (GicV2.gic_v2_init cfg dev2 flag hw2).initialized
        (GicV2.gic_v2_init cfg dev2 flag hw2).hw).hw = (GicV2.gic_v2_init cfg dev2 flag hw2).hw) ∧
    ((GicV3.gic_v3_init cfg dev3 flag hw3).ret = 0 ∧
      (GicV3.gic_v3_init cfg dev3 flag hw3).initialized = true ∧
      (GicV3.gic_v3_init cfg dev3 (GicV3.gic_v3_init cfg dev3 flag hw3).initialized
        (GicV3.gic_v3_init cfg dev3 flag hw3).hw).trace = [] ∧
      (GicV3.gic_v3_init cfg dev3 (GicV3.gic_v3_init cfg dev3 flag hw3).initialized
        (GicV3.gic_v3_init cfg dev3 flag hw3).hw).ret = 0 ∧
      (GicV3.gic_v3_init cfg dev3 (GicV3.gic_v3_init cfg dev3 flag hw3).initialized
        (GicV3.gic_v3_init cfg dev3 flag hw3).hw).hw = (GicV3.gic_v3_init cfg dev3 flag hw3).hw) := by
  have e2 : (GicV2.gic_v2_init cfg dev2 flag hw2).initialized = true := by
    cases flag <;> simp [GicV2.gic_v2_init]
  have e3 : (GicV3.gic_v3_init cfg dev3 flag hw3).initialized = true := by
    cases flag <;> simp [GicV3.gic_v3_init]
  have r2 : (GicV2.gic_v2_init cfg dev2 flag hw2).ret = 0 := by
    cases flag <;> simp [GicV2.gic_v2_init]
  have r3 : (GicV3.gic_v3_init cfg dev3 flag hw3).ret = 0 := by
    cases flag <;> simp [GicV3.gic_v3_init]
  rw [e2, e3]
  refine ⟨⟨r2, rfl, ?_, ?_, ?_⟩, ⟨r3, rfl, ?_, ?_, ?_⟩⟩ <;> simp [GicV2.gic_v2_init, GicV3.gic_v3_init]

/-- Witness for C5: on a register file whose type register reads 1 (64
lines), `enable_clr[1]` is written and `enable_clr[0]` keeps its value. -/
theorem gic_init_leaves_private_lines_witness :
    Access.wr (GicV2.Reg.enable_clr 1) 0xffffffff ∈
        (GicV2.gic_v2_init ⟨4, true, true, false⟩ (memDevice GicV2.Reg) false
          (fun r => if r = GicV2.Reg.ic_type then 1 else 7)).trace ∧
      GicV2.aboveSpiStart (GicV2.Reg.enable_clr 1) ∧
      (GicV2.gic_v2_init ⟨4, true, true, false⟩ (memDevice GicV2.Reg) false
          (fun r => if r = GicV2.Reg.ic_type then 1 else 7)).hw (GicV2.Reg.enable_clr 0) = 7 :=
  ⟨by decide,
    (gic_init_leaves_private_lines ⟨4, true, true, false⟩ (memDevice GicV2.Reg)
      (fun r => if r = GicV2.Reg.ic_type then 1 else 7) (memDevice GicV3.Reg)
      (fun _ => 0)).1 _ 0xffffffff (by decide),
    (gic_init_leaves_private_lines ⟨4, true, true, false⟩ (memDevice GicV2.Reg)
      (fun r => if r = GicV2.Reg.ic_type then 1 else 7) (memDevice GicV3.Reg)
      (fun _ => 0)).2.2.1 _ (GicV2.Reg.enable_clr 0) (by simp [GicV2.aboveSpiStart])⟩

/-- C7, at a failing input: on a distributor that keeps RWP set for three
reads after a write to `GICD_CTLR`, `gic_v3_init` writes `GICD_CTLR`, reads
it once, sees RWP (bit 31) set, and goes on to read `GICD_TYPER` and to write
the per-line banks; no read of `GICD_CTLR` returned a value with RWP clear
after the write. -/
theorem gic_v3_init_does_not_wait_for_rwp :
    (GicV3.gic_v3_init ⟨4, true, true, false⟩ (GicV3.rwpDevice 3) false (0, 0, 1)).trace.take 5 =
        [Access.rd GicV3.Reg.ctlr 0,
          Access.wr GicV3.Reg.ctlr 0x12,
          Access.rd GicV3.Reg.ctlr 0x80000012,
          Access.rd GicV3.Reg.typer 1,
          Access.wr (GicV3.Reg.icenablern 1) 0xffffffff] ∧
      0x80000012 &&& GicV3.GICD_CTLR_RWP ≠ 0 := by
  decide

/-- C8, as stated, fails for GICv3: with 64 lines reported, group 1 is a
group of shared lines and `gic_v3_init` makes no access to `igrouprn[1]`. -/
theorem gic_v3_init_skips_igrouprn :
    Access.rd GicV3.Reg.typer 1 ∈
        (GicV3.gic_v3_init ⟨4, true, true, false⟩ (GicV3.rwpDevice 0) false (0, 0, 1)).trace ∧
      32 ≤ 32 * 1 ∧ 32 * 1 < 32 * ((1 &&& 0x1f) + 1) ∧
      ∀ a ∈ (GicV3.gic_v3_init ⟨4, true, true, false⟩ (GicV3.rwpDevice 0) false (0, 0, 1)).trace,
        a.reg ≠ GicV3.Reg.igrouprn 1 := by
  decide

/-- C8, amended: in a first call of `gic_v2_init`, on any device, for the
value `t` read from the type register and every `g` with
`32 <= 32 * g < 32 * ((t & 0x1f) + 1)`, `security[g]` is written, with
`0xffffffff` when hypervisor support is configured and the platform is not
QEMU virt and with 0 otherwise; a first call of `gic_v3_init` writes no
`igrouprn` register. -/
theorem gic_v2_init_assigns_security {σ₂ σ₃ : Type} (cfg : Config)
    (dev2 : Device σ₂ GicV2.Reg) (hw2 : σ₂) (dev3 : Device σ₃ GicV3.Reg) (hw3 : σ₃) :
    (∀ t g, Access.rd GicV2.Reg.ic_type t ∈ (GicV2.gic_v2_init cfg dev2 false hw2).trace →
        32 ≤ 32 * g → 32 * g < 32 * ((t &&& 0x1f) + 1) →
        Access.wr (GicV2.Reg.security g)
            (if cfg.CONFIG_ARM_HYPERVISOR_SUPPORT = true ∧ cfg.CONFIG_PLAT_QEMU_ARM_VIRT = false
              then 0xffffffff else 0) ∈
          (GicV2.gic_v2_init cfg dev2 false hw2).trace) ∧
      (∀ g v, Access.wr (GicV3.Reg.igrouprn g) v ∉
        (GicV3.gic_v3_init cfg dev3 false hw3).trace) := by
  constructor
  · intro t g ht hg1 hg2
    obtain ⟨c, hc⟩ := GicV2.v2_trace_of_type_read cfg dev2 hw2 t ht
    rw [hc]
    apply List.mem_append_right
    apply List.mem_cons_of_mem
    rw [GicV2.v2_mem_lineWrites]
    right; right; left
    refine ⟨32 + (g - 1) * 32, ?_, ?_⟩
    · apply loopIdx_mem _ _ _ _ (by decide)
      rw [GicV2.v2_nrLines_eq]
      omega
    · have e : (32 + (g - 1) * 32) / 32 = g := by omega
      rw [e]
      congr 1
      unfold GicV2.securityValue
      cases cfg.CONFIG_ARM_HYPERVISOR_SUPPORT <;> cases cfg.CONFIG_PLAT_QEMU_ARM_VIRT <;> rfl
  · intro g v h
    obtain ⟨pre, t, hpre, ht⟩ := GicV3.gic_v3_init_trace cfg dev3 hw3
    rw [ht] at h
    rcases List.mem_append.1 h with h1 | h1
    · have := hpre _ h1
      simp [Access.reg] at this
    · rcases List.mem_cons.1 h1 with h2 | h2
      · cases h2
      · rw [GicV3.v3_mem_lineWrites] at h2
        rcases h2 with ⟨i, _, h3 | h3⟩ | ⟨i, _, h3⟩ | ⟨i, _, h3⟩ <;> cases h3

/-- Witness for C8, amended: with hypervisor support and 64 lines reported,
`security[1]` is written with `0xffffffff`. -/
theorem gic_v2_init_assigns_security_witness :
    Access.wr (GicV2.Reg.security 1) 0xffffffff ∈
      (GicV2.gic_v2_init ⟨4, true, true, false⟩ (memDevice GicV2.Reg) false
        (fun r => if r = GicV2.Reg.ic_type then 1 else 0)).trace :=
  (gic_v2_init_assigns_security ⟨4, true, true, false⟩ (memDevice GicV2.Reg)
    (fun r => if r = GicV2.Reg.ic_type then 1 else 0) (memDevice GicV3.Reg)
    (fun _ => 0)).1 1 1 (by decide) (by decide) (by decide)

/-- C9, as stated, fails: with 64 lines reported `gic_v2_init` makes two
writes to the config bank, `config[2]` and `config[3]`, not one. -/
theorem gic_v2_init_64_lines_two_config_writes :
    Access.rd GicV2.Reg.ic_type 1 ∈
        (GicV2.gic_v2_init ⟨4, true, true, false⟩ (memDevice GicV2.Reg) false
          (fun r => if r = GicV2.Reg.ic_type then 1 else 0)).trace ∧
      1 &&& GicV2.GICD_TYPE_LINESNR = 1 ∧
      ((GicV2.gic_v2_init ⟨4, true, true, false⟩ (memDevice GicV2.Reg) false
          (fun r => if r = GicV2.Reg.ic_type then 1 else 0)).trace.filter
        (fun a => decide (a = Access.wr (GicV2.Reg.config 2) 0x55555555 ∨
          a = Access.wr (GicV2.Reg.config 3) 0x55555555))).length = 2 := by
  decide

/-- C9, amended: in a first call of `gic_v2_init`, on any device, when the
value `t` read from the type register has line-count field 1 (64 lines), the
accesses after that read are exactly: one write of `0xffffffff` to
`enable_clr[1]`, one to `pending_clr[1]`, two config writes (`config[2]` and
`config[3]`, each `0x55555555`), one write to `security[1]`, and eight writes
to `priority[8..15]`, each the byte `GIC_PRI_IRQ` replicated in all four
bytes; the accesses before that read are to the `enable` register only. -/
theorem gic_v2_init_64_lines {σ : Type} (cfg : Config) (dev : Device σ GicV2.Reg) (hw : σ)
    (t : Nat) (ht : Access.rd GicV2.Reg.ic_type t ∈ (GicV2.gic_v2_init cfg dev false hw).trace)
    (h1 : t &&& GicV2.GICD_TYPE_LINESNR = 1) :
    ∃ pre, (∀ a ∈ pre, a.reg = GicV2.Reg.enable) ∧
      (GicV2.gic_v2_init cfg dev false hw).trace = pre ++
        [Access.rd GicV2.Reg.ic_type t,
          Access.wr (GicV2.Reg.enable_clr 1) 0xffffffff,
          Access.wr (GicV2.Reg.pending_clr 1) 0xffffffff,
          Access.wr (GicV2.Reg.config 2) 0x55555555,
          Access.wr (GicV2.Reg.config 3) 0x55555555,
          Access.wr (GicV2.Reg.security 1) (GicV2.securityValue cfg),
          Access.wr (GicV2.Reg.priority 8) (GicV2.GIC_PRI_IRQ cfg * 0x01010101),
          Access.wr (GicV2.Reg.priority 9) (GicV2.GIC_PRI_IRQ cfg * 0x01010101),
          Access.wr (GicV2.Reg.priority 10) (GicV2.GIC_PRI_IRQ cfg * 0x01010101),
          Access.wr (GicV2.Reg.priority 11) (GicV2.GIC_PRI_IRQ cfg * 0x01010101),
          Access.wr (GicV2.Reg.priority 12) (GicV2.GIC_PRI_IRQ cfg * 0x01010101),
          Access.wr (GicV2.Reg.priority 13) (GicV2.GIC_PRI_IRQ cfg * 0x01010101),
          Access.wr (GicV2.Reg.priority 14) (GicV2.GIC_PRI_IRQ cfg * 0x01010101),
          Access.wr (GicV2.Reg.priority 15) (GicV2.GIC_PRI_IRQ cfg * 0x01010101)] := by
  obtain ⟨c, hc⟩ := GicV2.v2_trace_of_type_read cfg dev hw t ht
  refine ⟨GicV2.ctlrAccesses c, GicV2.ctlrAccesses_reg c, ?_⟩
  rw [hc, GicV2.v2_nrLines_eq]
  unfold GicV2.GICD_TYPE_LINESNR at h1
  rw [h1]
  have e1 : loopIdx 32 32 (32 * (1 + 1)) = [32] := by decide
  have e2 : loopIdx 32 16 (32 * (1 + 1)) = [32, 48] := by decide
  have e3 : loopIdx 32 4 (32 * (1 + 1)) = [32, 36, 40, 44, 48, 52, 56, 60] := by decide
  simp [GicV2.lineWrites, GicV2.SPI_START, e1, e2, e3, GicV2.IRQ_SET_ALL,
    GicV2.securityValue_lt, GicV2.priorityWord_eq, Nat.shiftRight_eq_div_pow]

/-- Witness for C9, amended, on a register file whose type register reads 1. -/
theorem gic_v2_init_64_lines_witness :
    ∃ pre, (∀ a ∈ pre, a.reg = GicV2.Reg.enable) ∧
      (GicV2.gic_v2_init ⟨4, true, true, false⟩ (memDevice GicV2.Reg) false
          (fun r => if r = GicV2.Reg.ic_type then 1 else 0)).trace = pre ++
        [Access.rd GicV2.Reg.ic_type 1,
          Access.wr (GicV2.Reg.enable_clr 1) 0xffffffff,
          Access.wr (GicV2.Reg.pending_clr 1) 0xffffffff,
          Access.wr (GicV2.Reg.config 2) 0x55555555,
          Access.wr (GicV2.Reg.config 3) 0x55555555,
          Access.wr (GicV2.Reg.security 1) 0xffffffff,
          Access.wr (GicV2.Reg.priority 8) 0x80808080,
          Access.wr (GicV2.Reg.priority 9) 0x80808080,
          Access.wr (GicV2.Reg.priority 10) 0x80808080,
          Access.wr (GicV2.Reg.priority 11) 0x80808080,
          Access.wr (GicV2.Reg.priority 12) 0x80808080,
          Access.wr (GicV2.Reg.priority 13) 0x80808080,
          Access.wr (GicV2.Reg.priority 14) 0x80808080,
          Access.wr (GicV2.Reg.priority 15) 0x80808080] :=
  gic_v2_init_64_lines ⟨4, true, true, false⟩ (memDevice GicV2.Reg)
    (fun r => if r = GicV2.Reg.ic_type then 1 else 0) 1 (by decide) (by decide)

set_option maxRecDepth 100000 in
/-- C10, at a failing input: when the type register reads 31 (1024 lines),
`gic_v2_init` writes `priority[255]` and `gic_v3_init` writes
`ipriorityrn[255]`, while both arrays are declared with 255 elements. -/
theorem gic_init_priority_index_out_of_bounds :
    (Access.wr (GicV2.Reg.priority 255) 0x80808080 ∈
        (GicV2.gic_v2_init ⟨4, true, true, false⟩ (memDevice GicV2.Reg) false
          (fun r => if r = GicV2.Reg.ic_type then 31 else 0)).trace ∧
      GicV2.declaredLen (GicV2.Reg.priority 255) = some 255 ∧
      GicV2.regIndex (GicV2.Reg.priority 255) = some 255) ∧
    (Access.wr (GicV3.Reg.ipriorityrn 255) 0xa0a0a0a0 ∈
        (GicV3.gic_v3_init ⟨4, true, true, false⟩ (memDevice GicV3.Reg) false
          (fun r => if r = GicV3.Reg.typer then 31 else 0)).trace ∧
      GicV3.declaredLen (GicV3.Reg.ipriorityrn 255) = some 255 ∧
      GicV3.regIndex (GicV3.Reg.ipriorityrn 255) = some 255) := by
  decide

/-! ## The CPU table -/

namespace Smp

theorem sentinel_nil (n : Nat) : ¬ SentinelTerminated [] n := by
  intro h
  have := h.2
  simp at this

theorem sentinel_zero (e : elfloader_cpu) (rest : List elfloader_cpu)
    (h : SentinelTerminated (e :: rest) 0) : e.compat = none := by
  have := h.2
  simpa using this

theorem sentinel_succ (e : elfloader_cpu) (rest : List elfloader_cpu) (n : Nat)
    (h : SentinelTerminated (e :: rest) (n + 1)) :
    e.compat ≠ none ∧ SentinelTerminated rest n := by
  refine ⟨?_, ?_, ?_⟩
  · have := h.1 0 (Nat.succ_pos n)
    intro hc
    simp [hc] at this
  · intro i hi
    have := h.1 (i + 1) (Nat.succ_lt_succ hi)
    simpa using this
  · have := h.2
    simpa using this

/-- Entries before the sentinel exist and have a non-`NULL` `compat`. -/
theorem sentinel_entry (tbl : List elfloader_cpu) (n i : Nat)
    (h : SentinelTerminated tbl n) (hi : i < n) :
    ∃ e, tbl[i]? = some e ∧ e.compat ≠ none := by
  have := h.1 i hi
  cases he : tbl[i]? with
  | none => simp [he] at this
  | some e =>
    refine ⟨e, rfl, ?_⟩
    intro hc
    simp [he, hc] at this

theorem sentinel_last (tbl : List elfloader_cpu) (n : Nat) (h : SentinelTerminated tbl n) :
    ∃ e, tbl[n]? = some e ∧ e.compat = none := by
  have := h.2
  cases he : tbl[n]? with
  | none => simp [he] at this
  | some e =>
    refine ⟨e, rfl, ?_⟩
    simpa [he] using this

/-- What the scan for the boot core returns on a sentinel-terminated table:
`-1` when no entry before the sentinel matches, else the index of the first
entry that does. -/
theorem findBootCpu_spec (m : Nat) :
    ∀ (n : Nat) (l : List elfloader_cpu) (k : Nat), SentinelTerminated l n →
      (findBootCpu m l k = some (-1) ∧ ∀ j, j < n → l[j]?.map (fun e => e.cpu_id) ≠ some m) ∨
      (∃ j, j < n ∧ findBootCpu m l k = some ((k + j : Nat) : Int) ∧
        l[j]?.map (fun e => e.cpu_id) = some m ∧
        ∀ j1, j1 < j → l[j1]?.map (fun e => e.cpu_id) ≠ some m) := by
  intro n
  induction n with
  | zero =>
    intro l k h
    left
    cases l with
    | nil => exact absurd h (sentinel_nil 0)
    | cons e rest =>
      have hc := sentinel_zero e rest h
      exact ⟨by simp [findBootCpu, hc], fun j hj => absurd hj (Nat.not_lt_zero j)⟩
  | succ n ih =>
    intro l k h
    cases l with
    | nil => exact absurd h (sentinel_nil _)
    | cons e rest =>
      obtain ⟨hc, hrest⟩ := sentinel_succ e rest n h
      by_cases hid : e.cpu_id = m
      · right
        refine ⟨0, Nat.succ_pos n, by simp [findBootCpu, hc, hid], by simp [hid], ?_⟩
        intro j1 hj1
        exact absurd hj1 (Nat.not_lt_zero j1)
      · rcases ih rest (k + 1) hrest with ⟨h1, h2⟩ | ⟨j, hj, h1, h2, h3⟩
        · left
          refine ⟨by simp [findBootCpu, hc, hid, h1], ?_⟩
          intro j hj
          cases j with
          | zero => simpa using hid
          | succ j => simpa using h2 j (Nat.lt_of_succ_lt_succ hj)
        · right
          refine ⟨j + 1, Nat.succ_lt_succ hj, ?_, by simpa using h2, ?_⟩
          · simp only [findBootCpu, hc, hid, if_false, h1]
            congr 2
            omega
          · intro j1 hj1
            cases j1 with
            | zero => simpa using hid
            | succ j1 => simpa using h3 j1 (Nat.lt_of_succ_lt_succ hj1)

end Smp

/-! ## The second loop of `init_cpus` -/

namespace Smp

theorem cpuAt_natCast (tbl : List elfloader_cpu) (j : Nat) : cpuAt tbl (j : Int) = tbl[j]? := by
  unfold cpuAt
  have : ¬ ((j : Int) < 0) := by omega
  simp [this]

theorem waitCoreUp_first_up (p : Platform) (slot τ : Nat)
    (hlow : ∀ t, t < τ → p.is_core_up slot t = false) (hup : p.is_core_up slot τ = true) :
    ∀ budget t, t ≤ τ → τ - t < budget →
      waitCoreUp p slot budget t =
        (true, List.replicate (τ - t) (Event.poll slot false) ++ [Event.poll slot true]) := by
  intro budget
  induction budget with
  | zero => intro t _ h; omega
  | succ budget ih =>
    intro t ht hb
    by_cases e : t = τ
    · subst e
      simp [waitCoreUp, hup]
    · have hlt : t < τ := by omega
      have e1 : τ - t = (τ - (t + 1)) + 1 := by omega
      simp only [waitCoreUp, hlow t hlt, Bool.false_eq_true, if_false]
      rw [ih (t + 1) (by omega) (by omega), e1, List.replicate_succ]
      simp

theorem bringUp_trace (cfg : Config) (p : Platform) (n b : Nat)
    (htbl : SentinelTerminated p.elfloader_cpus n) (hb : b < n)
    (hon : ∀ i k, p.plat_cpu_on i k = 0) (τ : Nat → Nat)
    (hlow : ∀ k t, t < τ k → p.is_core_up k t = false)
    (hup : ∀ k, p.is_core_up k (τ k) = true) (budget : Nat)
    (hbud : ∀ k, k ≤ min (n - 1) (cfg.CONFIG_MAX_NUM_NODES - 1) → τ k < budget) :
    ∀ fuel j k, 1 ≤ k → k ≤ n →
      ((j = b + k ∧ b + k ≤ n ∧ n - j + b + 2 ≤ fuel) ∨
        (j + n = b + k ∧ j ≤ b ∧ b - j + 1 ≤ fuel)) →
      bringUp cfg p (b : Int) (b : Int) budget fuel (j : Int) k =
        (Outcome.returned,
          (List.range' k (min (n - 1) (cfg.CONFIG_MAX_NUM_NODES - 1) + 1 - k)).flatMap
            (fun k => activation ((b + k) % n) k (τ k)) ++ afterLoop cfg) := by
  intro fuel
  induction fuel with
  | zero => intro j k _ _ h; omega
  | succ fuel ih =>
    intro j k hk1 hkn hst
    by_cases hkM : k < cfg.CONFIG_MAX_NUM_NODES
    · by_cases hjb : j = b
      · have hk : k = n := by omega
        have e : min (n - 1) (cfg.CONFIG_MAX_NUM_NODES - 1) + 1 - k = 0 := by omega
        simp [bringUp, hjb, e, afterLoop]
      · have hcond : k < cfg.CONFIG_MAX_NUM_NODES ∧ (j : Int) ≠ (b : Int) :=
          ⟨hkM, by omega⟩
        have hne : ¬ ((j : Int) = (b : Int)) := by omega
        -- the step that requests a core
        have hreq : j < n → (b + k) % n = j →
            ((j + 1 = b + (k + 1) ∧ b + (k + 1) ≤ n ∧ n - (j + 1) + b + 2 ≤ fuel) ∨
              (j + 1 + n = b + (k + 1) ∧ j + 1 ≤ b ∧ b - (j + 1) + 1 ≤ fuel)) →
            bringUp cfg p (b : Int) (b : Int) budget (fuel + 1) (j : Int) k =
              (Outcome.returned,
                (List.range' k (min (n - 1) (cfg.CONFIG_MAX_NUM_NODES - 1) + 1 - k)).flatMap
                  (fun k => activation ((b + k) % n) k (τ k)) ++ afterLoop cfg) := by
          intro hjn hmod hnext
          obtain ⟨e, he, hc⟩ := sentinel_entry _ n j htbl hjn
          have hkm : k ≤ min (n - 1) (cfg.CONFIG_MAX_NUM_NODES - 1) := by omega
          have hw := waitCoreUp_first_up p k (τ k) (hlow k) (hup k) budget 0 (Nat.zero_le _)
            (by have := hbud k hkm; omega)
          have hrec := ih (j + 1) (k + 1) (by omega) (by omega) hnext
          have e1 : min (n - 1) (cfg.CONFIG_MAX_NUM_NODES - 1) + 1 - k =
              (min (n - 1) (cfg.CONFIG_MAX_NUM_NODES - 1) + 1 - (k + 1)) + 1 := by omega
          have hcast : ((j : Int) + 1) = ((j + 1 : Nat) : Int) := by push_cast; rfl
          rw [e1, List.range'_succ]
          simp only [bringUp, hcond, hne, if_true, if_false, cpuAt_natCast, he, hc, hon,
            ne_eq, not_true_eq_false, hw, hcast, hrec, Int.toNat_ofNat, and_self,
            not_false_eq_true, List.flatMap_cons, hmod, activation, Nat.sub_zero,
            List.cons_append, List.append_assoc]
        rcases hst with ⟨h1, h2, h3⟩ | ⟨h1, h2, h3⟩
        · by_cases hjn : j < n
          · apply hreq hjn
            · rw [← h1]; exact Nat.mod_eq_of_lt hjn
            · left; omega
          · have hjn2 : j = n := by omega
            obtain ⟨e, he, hc⟩ := sentinel_last _ n htbl
            have hrec := ih 0 k hk1 hkn (Or.inr ⟨by omega, by omega, by omega⟩)
            have hcast : (-1 + 1 : Int) = ((0 : Nat) : Int) := by decide
            subst hjn2
            simp only [bringUp, hcond, hne, if_true, if_false, cpuAt_natCast, he, hc, hcast,
              hrec, and_self, not_false_eq_true]
            rw [if_pos ⟨trivial, hcond.2⟩]
        · apply hreq (by omega)
          · have : b + k = j + n := by omega
            rw [this, Nat.add_mod_right]
            exact Nat.mod_eq_of_lt (by omega)
          · right; omega
    · have e : min (n - 1) (cfg.CONFIG_MAX_NUM_NODES - 1) + 1 - k = 0 := by omega
      simp [bringUp, hkM, e, afterLoop]

end Smp

/-! ## Claims about `init_cpus` -/

namespace Smp

theorem demoTable_sentinel : SentinelTerminated (demoTable 4) 4 := by
  unfold SentinelTerminated
  decide

/-- C4: on a table of `n` entries followed by its sentinel and for any
MPIDR value, the scan at the start of `init_cpus` yields an index below `n`
iff some entry before the sentinel has that `cpu_id`; an index it yields is
the smallest one whose entry has that `cpu_id`; and when no entry matches, the
scan leaves `-1` and `init_cpus` aborts, having made no power-on request (its
only event is the abort). -/
theorem init_cpus_boot_core_scan (cfg : Config) (p : Platform) (n : Nat)
    (htbl : SentinelTerminated p.elfloader_cpus n) :
    ((∃ b : Nat, b < n ∧ findBootCpu p.mpidr p.elfloader_cpus 0 = some (b : Int)) ↔
        ∃ i, i < n ∧ p.elfloader_cpus[i]?.map (fun e => e.cpu_id) = some p.mpidr) ∧
      (∀ b : Nat, findBootCpu p.mpidr p.elfloader_cpus 0 = some (b : Int) →
        b < n ∧ p.elfloader_cpus[b]?.map (fun e => e.cpu_id) = some p.mpidr ∧
          ∀ j, j < b → p.elfloader_cpus[j]?.map (fun e => e.cpu_id) ≠ some p.mpidr) ∧
      ((∀ i, i < n → p.elfloader_cpus[i]?.map (fun e => e.cpu_id) ≠ some p.mpidr) →
        findBootCpu p.mpidr p.elfloader_cpus 0 = some (-1) ∧
          ∀ fuel, init_cpus cfg p fuel = (Outcome.aborted, [Event.abort])) := by
  have hspec := findBootCpu_spec p.mpidr n p.elfloader_cpus 0 htbl
  have hidx : ∀ b : Nat, findBootCpu p.mpidr p.elfloader_cpus 0 = some (b : Int) →
      b < n ∧ p.elfloader_cpus[b]?.map (fun e => e.cpu_id) = some p.mpidr ∧
        ∀ j, j < b → p.elfloader_cpus[j]?.map (fun e => e.cpu_id) ≠ some p.mpidr := by
    intro b hb
    rcases hspec with ⟨h1, _⟩ | ⟨j, hj, h1, h2, h3⟩
    · rw [h1] at hb
      injection hb with hb
      omega
    · rw [h1] at hb
      injection hb with hb
      have : j = b := by omega
      subst this
      exact ⟨hj, h2, h3⟩
  refine ⟨⟨?_, ?_⟩, hidx, ?_⟩
  · rintro ⟨b, _, hb⟩
    exact ⟨b, (hidx b hb).1, (hidx b hb).2.1⟩
  · rintro ⟨i, hi, hm⟩
    rcases hspec with ⟨_, h2⟩ | ⟨j, hj, h1, _, _⟩
    · exact absurd hm (h2 i hi)
    · exact ⟨0 + j, by omega, h1⟩
  · intro hno
    rcases hspec with ⟨h1, _⟩ | ⟨j, hj, _, h2, _⟩
    · refine ⟨h1, fun fuel => ?_⟩
      simp [init_cpus, h1]
    · exact absurd h2 (hno j hj)

/-- Witness for C4: four cores with identifiers 0..3, booting on MPIDR 2:
the scan yields index 2. -/
theorem init_cpus_boot_core_scan_witness :
    findBootCpu 2 (demoTable 4) 0 = some 2 ∧
      (2 < 4 ∧ (demoTable 4)[2]?.map (fun e => e.cpu_id) = some 2 ∧
        ∀ j, j < 2 → (demoTable 4)[j]?.map (fun e => e.cpu_id) ≠ some 2) :=
  ⟨by decide,
    (init_cpus_boot_core_scan ⟨4, true, false, false⟩ (demoPlatform 4 2) 4
      demoTable_sentinel).2.1 2 (by decide)⟩

/-- C1: on a table of `n` entries followed by its sentinel, with boot index
`b` found by the scan, when every `plat_cpu_on` call returns 0 and every slot
is eventually seen up, `init_cpus` returns (for every large enough iteration
budget) and its events are exactly, for `k = 1, 2, .., min (n - 1) (M - 1)`
in this order: the request for table index `(b + k) mod n` with stack
`core_stacks[k]`, then the polls of slot `k` up to and including the first
that sees the core up; followed by the final `MSR` on AArch64.  None of the
requested indices is `b`. -/
theorem init_cpus_activation_order (cfg : Config) (p : Platform) (n b : Nat)
    (htbl : SentinelTerminated p.elfloader_cpus n)
    (hboot : findBootCpu p.mpidr p.elfloader_cpus 0 = some (b : Int))
    (hon : ∀ i k, p.plat_cpu_on i k = 0)
    (hup : ∀ k, ∃ t, p.is_core_up k t = true) :
    (∃ N, ∀ fuel, N ≤ fuel →
        init_cpus cfg p fuel =
          (Outcome.returned,
            (List.range' 1 (min (n - 1) (cfg.CONFIG_MAX_NUM_NODES - 1))).flatMap
              (fun k => activation ((b + k) % n) k (Nat.find (hup k))) ++ afterLoop cfg)) ∧
      (∀ k, 1 ≤ k → k ≤ min (n - 1) (cfg.CONFIG_MAX_NUM_NODES - 1) → (b + k) % n ≠ b) := by
  have hb : b < n := by
    rcases findBootCpu_spec p.mpidr n p.elfloader_cpus 0 htbl with ⟨h1, _⟩ | ⟨j, hj, h1, _, _⟩
    · rw [h1] at hboot
      injection hboot with h
      omega
    · rw [h1] at hboot
      injection hboot with h
      omega
  constructor
  · refine ⟨n + 2 + ∑ k in Finset.range (min (n - 1) (cfg.CONFIG_MAX_NUM_NODES - 1) + 1),
      Nat.find (hup k), ?_⟩
    intro fuel hfuel
    have hbud : ∀ k, k ≤ min (n - 1) (cfg.CONFIG_MAX_NUM_NODES - 1) →
        Nat.find (hup k) < fuel := by
      intro k hk
      have := Finset.single_le_sum
        (f := fun k => Nat.find (hup k))
        (s := Finset.range (min (n - 1) (cfg.CONFIG_MAX_NUM_NODES - 1) + 1))
        (fun i _ => Nat.zero_le _) (Finset.mem_range.2 (Nat.lt_succ_of_le hk))
      simp only at this
      omega
    have hlow : ∀ k t, t < Nat.find (hup k) → p.is_core_up k t = false := by
      intro k t ht
      have := Nat.find_min (hup k) ht
      simpa using this
    have htr := bringUp_trace cfg p n b htbl hb hon (fun k => Nat.find (hup k)) hlow
      (fun k => Nat.find_spec (hup k)) fuel hbud fuel (b + 1) 1 (le_refl _) (by omega)
      (Or.inl ⟨rfl, by omega, by omega⟩)
    have hcast : ((b : Int) + 1) = ((b + 1 : Nat) : Int) := by push_cast; rfl
    have hne : ¬ ((b : Int) = -1) := by omega
    simp only [init_cpus, hboot, hne, if_false, hcast, htr]
    simp
  · intro k hk1 hk2 h
    by_cases hlt : b + k < n
    · rw [Nat.mod_eq_of_lt hlt] at h
      omega
    · rw [Nat.mod_eq_sub_mod (by omega), Nat.mod_eq_of_lt (by omega)] at h
      omega

/-- Witness for C1: four cores, boot core at table index 2,
`CONFIG_MAX_NUM_NODES = 4`: the requests are for indices 3, 0, 1 with stacks
1, 2, 3, each followed by the polls of its slot; and on a single-core table
there is no request. -/
theorem init_cpus_activation_order_witness :
    (∃ N, ∀ fuel, N ≤ fuel →
        (init_cpus ⟨4, false, false, false⟩ (demoPlatform 4 2) fuel).1 = Outcome.returned) ∧
      (2 + 1) % 4 ≠ 2 ∧
      init_cpus ⟨4, false, false, false⟩ (demoPlatform 4 2) 5 =
        (Outcome.returned,
          [Event.cpu_on 3 1 0, Event.poll 1 false, Event.poll 1 true,
            Event.cpu_on 0 2 0, Event.poll 2 false, Event.poll 2 true,
            Event.cpu_on 1 3 0, Event.poll 3 false, Event.poll 3 true]) ∧
      init_cpus ⟨4, false, false, false⟩ (demoPlatform 1 0) 2 = (Outcome.returned, []) :=
  have h := init_cpus_activation_order ⟨4, false, false, false⟩ (demoPlatform 4 2) 4 2
    demoTable_sentinel (by decide) (fun _ _ => rfl) (fun _ => ⟨1, rfl⟩)
  ⟨h.1.imp (fun _ hN fuel hf => by rw [hN fuel hf]), h.2 1 (by decide) (by decide),
    by decide, by decide⟩

end Smp

/-! ## Claims about `non_boot_main` -/

namespace Smp

theorem beforeLoad_events (cfg : Config) (env : CoreEnv) :
    ∀ e ∈ beforeLoad cfg env,
      e = Event.arm_disable_dcaches ∨ e = Event.non_boot_init ∨ e = Event.leave_hyp := by
  intro e he
  unfold beforeLoad at he
  simp only [List.mem_append] at he
  rcases he with (he | he) | he
  · split at he <;> simp at he
    exact Or.inl he
  · simp at he
    exact Or.inr (Or.inl he)
  · split at he
    · simp at he
    · split at he <;> simp at he
      exact Or.inr (Or.inr he)

/-- The block that builds the translation tables ends with the call that
builds them, preceded at most by `disable_caches_hyp`. -/
theorem setupMmu_shape (cfg : Config) (hyp : Bool) (id : Nat) :
    ∃ pre vs, setupMmu cfg hyp id = pre ++ [vs] ∧
      (vs = Event.init_hyp_boot_vspace id ∨ vs = Event.init_boot_vspace id) ∧
      ∀ e ∈ pre, e = Event.disable_caches_hyp := by
  unfold setupMmu
  cases hyp
  · exact ⟨[], _, rfl, Or.inr rfl, by simp⟩
  · cases cfg.CONFIG_ARCH_AARCH64
    · exact ⟨[], _, rfl, Or.inl rfl, by simp⟩
    · exact ⟨[Event.disable_caches_hyp], _, rfl, Or.inl rfl, by simp⟩

/-- The block that enables translation ends with the enable primitive,
preceded at most by the store to `pd_node_id`. -/
theorem enableMmu_shape (cfg : Config) (env : CoreEnv) (hyp : Bool) (id : Nat) :
    ∃ pre mmu, enableMmu cfg env hyp id = pre ++ [mmu] ∧
      ((∃ args, mmu = Event.arm_enable_hyp_mmu args) ∨ (∃ args, mmu = Event.arm_enable_mmu args)) ∧
      ∀ e ∈ pre, e = Event.set_pd_node_id id := by
  unfold enableMmu
  cases hyp <;> cases cfg.CONFIG_ARCH_AARCH64
  · exact ⟨[Event.set_pd_node_id id], _, rfl, Or.inr ⟨_, rfl⟩, by simp⟩
  · exact ⟨[], _, rfl, Or.inr ⟨_, rfl⟩, by simp⟩
  · exact ⟨[Event.set_pd_node_id id], _, rfl, Or.inl ⟨_, rfl⟩, by simp⟩
  · exact ⟨[], _, rfl, Or.inl ⟨_, rfl⟩, by simp⟩

/-- The trace of `non_boot_main` when image loading succeeds. -/
theorem non_boot_main_trace (cfg : Config) (env : CoreEnv) (core_up : Nat → Int) (id : Nat)
    (hload : (env.load_images id).ret = 0) :
    (non_boot_main cfg env core_up id).trace =
      beforeLoad cfg env ++ [Event.load_images id] ++
        setupMmu cfg (env.is_hyp_mode (if cfg.CONFIG_ARM_HYPERVISOR_SUPPORT then 0 else 1)) id ++
        enableMmu cfg env
          (env.is_hyp_mode ((if cfg.CONFIG_ARM_HYPERVISOR_SUPPORT then 0 else 1) + 1)) id ++
        [Event.dsb, Event.core_up_write id (id : Int), Event.dsb] ++
        [Event.kernel_call (env.load_images id).kernel_info.virt_entry
          [(env.load_images id).user_info.phys_region_start,
            (env.load_images id).user_info.phys_region_end,
            (env.load_images id).user_info.phys_virt_offset,
            (env.load_images id).user_info.virt_entry,
            (env.load_images id).dtb, (env.load_images id).dtb_size]] ++
        (if env.kernel_returns then [Event.abort] else []) := by
  unfold non_boot_main
  simp only [hload, ne_eq, not_true_eq_false, if_false]
  cases env.kernel_returns <;> simp

theorem non_boot_main_trace_failed (cfg : Config) (env : CoreEnv) (core_up : Nat → Int)
    (id : Nat) (hload : (env.load_images id).ret ≠ 0) :
    non_boot_main cfg env core_up id =
      ⟨Outcome.aborted, beforeLoad cfg env ++ [Event.load_images id] ++ [Event.abort],
        core_up⟩ := by
  unfold non_boot_main
  simp [hload]

/-- C2, as stated, fails: the fourth argument passed to the kernel is the
user image's virtual entry (`0x400000` here), not the kernel's virtual
entry (`0xffffff8000000000`, the address called). -/
theorem non_boot_main_fourth_argument_is_user_entry :
    ((demoEnv 0).load_images 1).ret = 0 ∧
      Event.kernel_call 0xffffff8000000000
          [0x80500000, 0x80600000, 0x80000000, 0x400000, 0x80f00000, 0x8000] ∈
        (non_boot_main ⟨4, true, false, false⟩ (demoEnv 0) (fun _ => 0) 1).trace ∧
      ((demoEnv 0).load_images 1).kernel_info.virt_entry = 0xffffff8000000000 ∧
      ((demoEnv 0).load_images 1).user_info.virt_entry = 0x400000 ∧
      Event.kernel_call 0xffffff8000000000
          [0x80500000, 0x80600000, 0x80000000, 0xffffff8000000000, 0x80f00000, 0x8000] ∉
        (non_boot_main ⟨4, true, false, false⟩ (demoEnv 0) (fun _ => 0) 1).trace := by
  decide

/-- C2, amended: when image loading succeeds for core `id`, `non_boot_main`
calls the kernel image's virtual entry exactly once (no other call into the
kernel precedes or follows), with exactly six arguments, in this order:
user-image physical start, user-image physical end, the user image's
physical-to-virtual offset, the user image's virtual entry, device-tree
physical address, device-tree size; if that call returns, the next and last
event is `abort`, and otherwise control stays in the kernel. -/
theorem non_boot_main_kernel_handoff (cfg : Config) (env : CoreEnv) (core_up : Nat → Int)
    (id : Nat) (hload : (env.load_images id).ret = 0) :
    ∃ pre args,
      args = [(env.load_images id).user_info.phys_region_start,
        (env.load_images id).user_info.phys_region_end,
        (env.load_images id).user_info.phys_virt_offset,
        (env.load_images id).user_info.virt_entry,
        (env.load_images id).dtb, (env.load_images id).dtb_size] ∧
      args.length = 6 ∧
      (∀ entry a, Event.kernel_call entry a ∉ pre) ∧
      (non_boot_main cfg env core_up id).trace =
        pre ++ Event.kernel_call (env.load_images id).kernel_info.virt_entry args ::
          (if env.kernel_returns then [Event.abort] else []) ∧
      (non_boot_main cfg env core_up id).outcome =
        (if env.kernel_returns then Outcome.aborted else Outcome.inKernel) := by
  refine ⟨beforeLoad cfg env ++ [Event.load_images id] ++
      setupMmu cfg (env.is_hyp_mode (if cfg.CONFIG_ARM_HYPERVISOR_SUPPORT then 0 else 1)) id ++
      enableMmu cfg env
        (env.is_hyp_mode ((if cfg.CONFIG_ARM_HYPERVISOR_SUPPORT then 0 else 1) + 1)) id ++
      [Event.dsb, Event.core_up_write id (id : Int), Event.dsb], _, rfl, rfl, ?_, ?_, ?_⟩
  rotate_left
  · rw [non_boot_main_trace cfg env core_up id hload]
    simp only [List.append_assoc, List.singleton_append]
  · unfold non_boot_main
    simp only [hload, ne_eq, not_true_eq_false, if_false]
    cases env.kernel_returns <;> rfl
  · intro entry a h
    simp only [List.mem_append, List.mem_cons, List.mem_singleton, List.not_mem_nil,
      or_false] at h
    obtain ⟨p1, v, h1, hv, hp1⟩ := setupMmu_shape cfg
      (env.is_hyp_mode (if cfg.CONFIG_ARM_HYPERVISOR_SUPPORT then 0 else 1)) id
    obtain ⟨p2, m, h2, hm, hp2⟩ := enableMmu_shape cfg env
      (env.is_hyp_mode ((if cfg.CONFIG_ARM_HYPERVISOR_SUPPORT then 0 else 1) + 1)) id
    rw [h1, h2] at h
    simp only [List.mem_append, List.mem_singleton] at h
    rcases h with ((((h | h) | (h | h)) | (h | h)) | h)
    · rcases beforeLoad_events cfg env _ h with h | h | h <;> cases h
    · cases h
    · cases hp1 _ h
    · subst h; rcases hv with h | h <;> cases h
    · cases hp2 _ h
    · subst h; rcases hm with ⟨_, h⟩ | ⟨_, h⟩ <;> cases h
    · rcases h with h | h | h <;> cases h

end Smp

namespace Smp

/-- Witness for C2, amended: core 1 in the demonstration environment. -/
theorem non_boot_main_kernel_handoff_witness :
    ∃ pre args,
      args = [0x80500000, 0x80600000, 0x80000000, 0x400000, 0x80f00000, 0x8000] ∧
      args.length = 6 ∧
      (∀ entry a, Event.kernel_call entry a ∉ pre) ∧
      (non_boot_main ⟨4, true, false, false⟩ (demoEnv 0) (fun _ => 0) 1).trace =
        pre ++ Event.kernel_call 0xffffff8000000000 args :: [] ∧
      (non_boot_main ⟨4, true, false, false⟩ (demoEnv 0) (fun _ => 0) 1).outcome =
        Outcome.inKernel :=
  non_boot_main_kernel_handoff ⟨4, true, false, false⟩ (demoEnv 0) (fun _ => 0) 1 (by decide)

theorem non_boot_main_core_up (cfg : Config) (env : CoreEnv) (core_up : Nat → Int) (id : Nat)
    (hload : (env.load_images id).ret = 0) (s : Nat) :
    (non_boot_main cfg env core_up id).core_up s = if s = id then (id : Int) else core_up s := by
  unfold non_boot_main
  simp only [hload, ne_eq, not_true_eq_false, if_false]
  cases env.kernel_returns <;> rfl

/-- C3: in every run of `non_boot_main(id)`: if image loading succeeds, the
trace has exactly one store to `core_up`, namely `core_up[id] = id`; it is
immediately preceded and followed by `dsb`; before the first `dsb` come, in
this order, the `load_images` call, the call that builds this core's
translation tables, and the translation-enable primitive (the event right
before that `dsb`); right after the second `dsb` comes the call into the
kernel; afterwards `core_up[id]` is `id`, every other slot is unchanged, and
`core_up[id]` is non-zero when `1 <= id`.  If image loading fails there is no
store to `core_up` and the array is unchanged. -/
theorem non_boot_main_readiness_signal (cfg : Config) (env : CoreEnv) (core_up : Nat → Int)
    (id : Nat) :
    ((env.load_images id).ret = 0 →
      ∃ pre vs mid mmu post,
        (non_boot_main cfg env core_up id).trace =
          pre ++ [vs] ++ mid ++
            [mmu, Event.dsb, Event.core_up_write id (id : Int), Event.dsb] ++ post ∧
        Event.load_images id ∈ pre ∧
        (vs = Event.init_hyp_boot_vspace id ∨ vs = Event.init_boot_vspace id) ∧
        ((∃ args, mmu = Event.arm_enable_hyp_mmu args) ∨
          (∃ args, mmu = Event.arm_enable_mmu args)) ∧
        (∀ s v, Event.core_up_write s v ∉ pre ++ [vs] ++ mid ++ [mmu]) ∧
        (∀ s v, Event.core_up_write s v ∉ post) ∧
        (∃ entry args, post.head? = some (Event.kernel_call entry args)) ∧
        (non_boot_main cfg env core_up id).core_up id = (id : Int) ∧
        (∀ s, s ≠ id → (non_boot_main cfg env core_up id).core_up s = core_up s) ∧
        (1 ≤ id → (non_boot_main cfg env core_up id).core_up id ≠ 0)) ∧
    ((env.load_images id).ret ≠ 0 →
      (∀ s v, Event.core_up_write s v ∉ (non_boot_main cfg env core_up id).trace) ∧
        ∀ s, (non_boot_main cfg env core_up id).core_up s = core_up s) := by
  constructor
  · intro hload
    obtain ⟨p1, vs, h1, hv, hp1⟩ := setupMmu_shape cfg
      (env.is_hyp_mode (if cfg.CONFIG_ARM_HYPERVISOR_SUPPORT then 0 else 1)) id
    obtain ⟨p2, mmu, h2, hm, hp2⟩ := enableMmu_shape cfg env
      (env.is_hyp_mode ((if cfg.CONFIG_ARM_HYPERVISOR_SUPPORT then 0 else 1) + 1)) id
    refine ⟨beforeLoad cfg env ++ [Event.load_images id] ++ p1, vs, p2, mmu,
      Event.kernel_call (env.load_images id).kernel_info.virt_entry
          [(env.load_images id).user_info.phys_region_start,
            (env.load_images id).user_info.phys_region_end,
            (env.load_images id).user_info.phys_virt_offset,
            (env.load_images id).user_info.virt_entry,
            (env.load_images id).dtb, (env.load_images id).dtb_size] ::
        (if env.kernel_returns then [Event.abort] else []),
      ?_, by simp, hv, hm, ?_, ?_, ⟨_, _, rfl⟩, ?_, ?_, ?_⟩
    · rw [non_boot_main_trace cfg env core_up id hload, h1, h2]
      simp only [List.append_assoc, List.singleton_append, List.cons_append, List.nil_append]
    · intro s v h
      simp only [List.mem_append, List.mem_singleton] at h
      rcases h with ((((h | h) | h) | h) | h) | h
      · rcases beforeLoad_events cfg env _ h with h | h | h <;> cases h
      · cases h
      · cases hp1 _ h
      · subst h; rcases hv with h | h <;> cases h
      · cases hp2 _ h
      · subst h; rcases hm with ⟨_, h⟩ | ⟨_, h⟩ <;> cases h
    · intro s v h
      rcases List.mem_cons.1 h with h | h
      · cases h
      · split at h <;> simp at h
    · rw [non_boot_main_core_up cfg env core_up id hload]
      simp
    · intro s hs
      rw [non_boot_main_core_up cfg env core_up id hload]
      simp [hs]
    · intro hid
      rw [non_boot_main_core_up cfg env core_up id hload]
      simp only [if_true]
      omega
  · intro hload
    rw [non_boot_main_trace_failed cfg env core_up id hload]
    refine ⟨?_, fun s => rfl⟩
    intro s v h
    simp only [List.mem_append, List.mem_singleton] at h
    rcases h with (h | h) | h
    · rcases beforeLoad_events cfg env _ h with h | h | h <;> cases h
    · cases h
    · cases h

/-- Witness for C3: core 1 in the demonstration environment, where loading
succeeds, and the same core when loading fails. -/
theorem non_boot_main_readiness_signal_witness :
    (non_boot_main ⟨4, true, false, false⟩ (demoEnv 0) (fun _ => 0) 1).core_up 1 = 1 ∧
      (non_boot_main ⟨4, true, false, false⟩ (demoEnv 0) (fun _ => 0) 1).trace =
        [Event.non_boot_init, Event.leave_hyp, Event.load_images 1, Event.disable_caches_hyp,
          Event.init_hyp_boot_vspace 1, Event.arm_enable_hyp_mmu [0x81101000],
          Event.dsb, Event.core_up_write 1 1, Event.dsb,
          Event.kernel_call 0xffffff8000000000
            [0x80500000, 0x80600000, 0x80000000, 0x400000, 0x80f00000, 0x8000]] ∧
      ∀ s v, Event.core_up_write s v ∉
        (non_boot_main ⟨4, true, false, false⟩ (demoEnv 1) (fun _ => 0) 1).trace :=
  ⟨by
      obtain ⟨_, _, _, _, _, _, _, _, _, _, _, _, h, _⟩ :=
        (non_boot_main_readiness_signal ⟨4, true, false, false⟩ (demoEnv 0) (fun _ => 0) 1).1
          (by decide)
      exact h,
    by decide,
    ((non_boot_main_readiness_signal ⟨4, true, false, false⟩ (demoEnv 1) (fun _ => 0) 1).2
      (by decide)).1⟩

end Smp

end Elfloader
